import Mathlib

/-!
Verification of the rf-console backend's profile/talkgroup engine
(`src/backend/src/server.js`): the CSV/TSV tokenizer, the record
normalizers, the filter-policy engine, the trunk/tags writers, the
quoted-TSV trunk validator and the profile/talkgroup store endpoints.

JavaScript strings are modelled as lists of characters (`Str`); the
file system visible to the engine (the profiles and runtime
directories) is modelled as explicit finite maps from file name to
content, passed through every side-effecting operation.
-/

namespace RFConsole

/-- JavaScript strings are modelled as lists of characters. -/
abbrev Str := List Char

/-- The ASCII whitespace characters stripped by the model of
`String.prototype.trim` (the JS original also strips rarer Unicode
space characters, which never appear in this engine's data). -/
def isWsChar (c : Char) : Bool :=
  c == ' ' || c == '\t' || c == '\n' || c == '\r'

/-- Model of `String.prototype.trim`. -/
def jsTrim (s : Str) : Str :=
  ((s.dropWhile isWsChar).reverse.dropWhile isWsChar).reverse

/-- Model of `String.prototype.toLowerCase` (ASCII letters). -/
def jsLower (s : Str) : Str := s.map Char.toLower

/-- Model of `String.prototype.toUpperCase` (ASCII letters). -/
def jsUpper (s : Str) : Str := s.map Char.toUpper

/-- Model of `String.prototype.startsWith` for a single character. -/
def startsWithChar (s : Str) (c : Char) : Bool :=
  match s with
  | [] => false
  | c' :: _ => c' == c

/-- Model of `String.prototype.endsWith`. -/
def strEndsWith (s suffx : Str) : Bool := decide (suffx <:+ s)

/-- Model of `String.prototype.includes` (substring containment). -/
def jsIncludes (s sub : Str) : Bool := decide (sub <:+: s)

/-- Model of `Array.prototype.join(sep)`. -/
def joinSep (sep : Str) : List Str → Str
  | [] => []
  | [x] => x
  | x :: y :: xs => x ++ sep ++ joinSep sep (y :: xs)

/-- Decimal rendering of a natural number, as JS template interpolation
renders a nonnegative integer. -/
def natToStr (n : Nat) : Str := Nat.toDigits 10 n

/-- Decimal rendering of an integer. -/
def intToStr (i : Int) : Str :=
  if i < 0 then '-' :: natToStr i.natAbs else natToStr i.natAbs

/-- The quote-doubling step of `quoteTsv` (server.js:336-338): the model
of `.replace` of every double quote by two double quotes. -/
def escQuotes : Str → Str
  | [] => []
  | c :: rest => if c = '"' then c :: c :: escQuotes rest else c :: escQuotes rest

/-- `quoteTsv` (server.js:336-338): wrap a value in double quotes,
doubling every double quote inside it. -/
def quoteTsv (value : Str) : Str := '"' :: (escQuotes value ++ ['"'])

/-- The `{ok, fields}` / `{ok:false, error}` result of `parseQuotedTsvLine`. -/
inductive TsvParse where
  | ok (fields : List Str)
  | fail (msg : Str)
deriving Repr, DecidableEq

mutual

/-- Outer `while` loop of `parseQuotedTsvLine` (server.js:441-475) at the
start of a field: the next character must be a double quote (else the
`field must start with double quote` error); an exhausted line yields the
fields collected so far. -/
def tsvExpectField : Str → TsvParse
  | [] => .ok []
  | c :: rest =>
    if c = '"' then tsvInField [] rest
    else .fail "field must start with double quote".data

/-- Inner scanning loop of `parseQuotedTsvLine` (server.js:450-463): a
doubled quote is an escaped quote, a single quote closes the field, and
end of line closes the field and ends the parse (the source pushes the
value and breaks out of both loops). -/
def tsvInField (value : Str) : Str → TsvParse
  | [] => .ok [value]
  | c :: rest =>
    if c = '"' then
      match rest with
      | [] => tsvAfterField value []
      | c2 :: rest2 =>
        if c2 = '"' then tsvInField (value ++ ['"']) rest2
        else tsvAfterField value (c2 :: rest2)
    else tsvInField (value ++ [c]) rest

/-- After a closed field (server.js:465-472): end of line ends the parse;
a tab starts the next field; anything else is the
`fields must be tab-separated quoted values` error. -/
def tsvAfterField (value : Str) : Str → TsvParse
  | [] => .ok [value]
  | c :: rest =>
    if c = '\t' then
      match tsvExpectField rest with
      | .ok fields => .ok (value :: fields)
      | .fail msg => .fail msg
    else .fail "fields must be tab-separated quoted values".data

end

/-- `parseQuotedTsvLine` (server.js:441-475). -/
def parseQuotedTsvLine (line : Str) : TsvParse := tsvExpectField line

/-- The rendering of one row of a quoted-TSV file: each field quoted by
`quoteTsv`, fields joined by a single tab (as in `writeTagsTsv` and
`writeTrunkTsv`, server.js:342, 402). -/
def renderTsvRow (fields : List Str) : Str :=
  joinSep ['\t'] (fields.map quoteTsv)

theorem escQuotes_append (a b : Str) :
    escQuotes (a ++ b) = escQuotes a ++ escQuotes b := by
  induction a with
  | nil => rfl
  | cons c rest ih =>
    by_cases h : c = '"' <;> simp [escQuotes, h, ih]

theorem tsvInField_escQuotes (f : Str) (value : Str) (rest : Str)
    (h : rest.head? ≠ some '"') :
    tsvInField value (escQuotes f ++ '"' :: rest) =
      tsvAfterField (value ++ f) rest := by
  induction f generalizing value with
  | nil =>
    cases rest with
    | nil => simp [escQuotes, tsvInField]
    | cons c2 r2 =>
      have hc2 : c2 ≠ '"' := by
        intro hc; exact h (by simp [hc])
      simp [escQuotes, tsvInField, hc2]
  | cons c f' ih =>
    by_cases hc : c = '"'
    · subst hc
      have h2 := ih (value ++ ['"'])
      simp only [escQuotes, if_pos rfl, List.cons_append]
      simp [tsvInField, h2]
    · have h2 := ih (value ++ [c])
      simp only [escQuotes, if_neg hc, List.cons_append]
      rw [tsvInField.eq_def]
      simp [hc, h2]

theorem parse_renderTsvRow (fields : List Str) :
    parseQuotedTsvLine (renderTsvRow fields) = .ok fields := by
  induction fields with
  | nil => rfl
  | cons f rest ih =>
    cases rest with
    | nil =>
      have hmain := tsvInField_escQuotes f [] [] (by simp)
      show tsvExpectField (quoteTsv f) = .ok [f]
      simp only [quoteTsv, tsvExpectField, if_pos rfl]
      rw [hmain]
      rfl
    | cons g gs =>
      have hmain := tsvInField_escQuotes f [] ('\t' :: renderTsvRow (g :: gs)) (by simp)
      have hgoal : renderTsvRow (f :: g :: gs) =
          '"' :: (escQuotes f ++ '"' :: '\t' :: renderTsvRow (g :: gs)) := by
        simp [renderTsvRow, joinSep, quoteTsv, List.append_assoc]
      rw [parseQuotedTsvLine, hgoal]
      simp only [tsvExpectField, if_pos rfl]
      rw [hmain]
      rw [parseQuotedTsvLine] at ih
      simp [tsvAfterField, ih]

/-- The normalized talkgroup entity (server.js:264-273, 294-303). -/
structure Entry where
  tgid : Int
  label : Str
  mode : Str
  encrypted : Bool
  category : Str
  favorite : Bool
  filterAction : Str
  enabled : Bool
deriving Repr, DecidableEq

/-- The `{policy, allow, deny, effective}` record of `buildFilterPolicy`. -/
structure FilterPolicy where
  policy : Str
  allow : List Int
  deny : List Int
  effective : List Int
deriving Repr, DecidableEq

/-- `buildFilterPolicy` (server.js:308-318). -/
def buildFilterPolicy (entries : List Entry) : FilterPolicy :=
  let allow := (entries.filter (fun e => e.enabled && e.filterAction == "allow".data)).map (fun e => e.tgid)
  let deny := (entries.filter (fun e => e.enabled && e.filterAction == "deny".data)).map (fun e => e.tgid)
  let policy := if allow.length > 0 then "whitelist".data else "blacklist".data
  { policy := policy, allow := allow, deny := deny,
    effective := if policy = "whitelist".data then allow else deny }

/-- C1: `buildFilterPolicy` returns policy `whitelist` iff some entry is
enabled with filterAction `allow`; `allow` (resp. `deny`) lists the tgids
of the enabled allow (resp. deny) entries in input order; `effective` is
`allow` when the policy is `whitelist` and `deny` otherwise. -/
theorem c1_buildFilterPolicy (entries : List Entry) :
    ((buildFilterPolicy entries).policy = "whitelist".data ↔
      ∃ e ∈ entries, e.enabled = true ∧ e.filterAction = "allow".data) ∧
    (buildFilterPolicy entries).allow =
      (entries.filter (fun e => e.enabled && e.filterAction == "allow".data)).map (fun e => e.tgid) ∧
    (buildFilterPolicy entries).deny =
      (entries.filter (fun e => e.enabled && e.filterAction == "deny".data)).map (fun e => e.tgid) ∧
    ((buildFilterPolicy entries).policy = "whitelist".data →
      (buildFilterPolicy entries).effective = (buildFilterPolicy entries).allow) ∧
    ((buildFilterPolicy entries).policy ≠ "whitelist".data →
      (buildFilterPolicy entries).effective = (buildFilterPolicy entries).deny)
    := by
  have hpol : (buildFilterPolicy entries).policy =
      if ((entries.filter (fun e => e.enabled && e.filterAction == "allow".data)).map (fun e => e.tgid)).length > 0
      then "whitelist".data else "blacklist".data := rfl
  have heff : (buildFilterPolicy entries).effective =
      if (buildFilterPolicy entries).policy = "whitelist".data
      then (buildFilterPolicy entries).allow else (buildFilterPolicy entries).deny := rfl
  refine ⟨?_, rfl, rfl, ?_, ?_⟩
  · rw [hpol]
    by_cases hc : ((entries.filter (fun e => e.enabled && e.filterAction == "allow".data)).map (fun e => e.tgid)).length > 0
    · rw [if_pos hc]
      constructor
      · intro _
        have hnil : entries.filter (fun e => e.enabled && e.filterAction == "allow".data) ≠ [] := by
          intro h0
          rw [h0] at hc
          simp at hc
        obtain ⟨e, he⟩ := List.exists_mem_of_ne_nil _ hnil
        have hm := List.mem_filter.1 he
        have hp := hm.2
        simp only [Bool.and_eq_true, beq_iff_eq] at hp
        exact ⟨e, hm.1, hp.1, hp.2⟩
      · intro _
        rfl
    · rw [if_neg hc]
      constructor
      · intro h
        exact absurd h (by decide)
      · rintro ⟨e, he, hen, hfa⟩
        exfalso
        apply hc
        have hmem : e ∈ entries.filter (fun e => e.enabled && e.filterAction == "allow".data) :=
          List.mem_filter.2 ⟨he, by simp [hen, hfa]⟩
        simpa using List.length_pos.2 (List.ne_nil_of_mem hmem)
  · intro h
    rw [heff, if_pos h]
  · intro h
    rw [heff, if_neg h]

/-- C10: rendering every string of a list with `quoteTsv`, joining with a
single tab and parsing back with `parseQuotedTsvLine` yields ok with the
original strings, including strings holding embedded quotes or tabs
(newline-free strings). -/
theorem c10_quoteTsv_parse_roundtrip (fields : List Str)
    (hnl : ∀ f ∈ fields, '\n' ∉ f) :
    parseQuotedTsvLine (joinSep ['\t'] (fields.map quoteTsv)) = .ok fields := by
  simpa [renderTsvRow] using parse_renderTsvRow fields

/-- Witness for C10 at a concrete list with an embedded quote and an
embedded tab. -/
theorem c10_quoteTsv_parse_roundtrip_witness :
    (∀ f ∈ ([['a', 'b'], ['x', '"', 'y'], ['p', '\t', 'q']] : List Str), '\n' ∉ f) ∧
    parseQuotedTsvLine (joinSep ['\t'] (([['a', 'b'], ['x', '"', 'y'], ['p', '\t', 'q']] : List Str).map quoteTsv)) =
      .ok [['a', 'b'], ['x', '"', 'y'], ['p', '\t', 'q']] :=
  ⟨by decide, c10_quoteTsv_parse_roundtrip _ (by decide)⟩

/-- Character loop of `parseCsvLine` (server.js:107-128), carrying the
current field, the in-quotes flag and the fields already pushed.  The
delimiter is a JS string (`ch === delimiter` compares the single
character `ch` against the whole delimiter string). -/
def parseCsvLineGo (delim : Str) : Str → Str → Bool → List Str → List Str
  | [], cur, _inQ, out => out ++ [cur]
  | [c], cur, inQ, out =>
    if c = '"' then parseCsvLineGo delim [] cur (!inQ) out
    else if [c] = delim && !inQ then parseCsvLineGo delim [] [] inQ (out ++ [cur])
    else parseCsvLineGo delim [] (cur ++ [c]) inQ out
  | c :: c2 :: rest, cur, inQ, out =>
    if c = '"' then
      if inQ ∧ c2 = '"' then parseCsvLineGo delim rest (cur ++ ['"']) inQ out
      else parseCsvLineGo delim (c2 :: rest) cur (!inQ) out
    else if [c] = delim && !inQ then parseCsvLineGo delim (c2 :: rest) [] inQ (out ++ [cur])
    else parseCsvLineGo delim (c2 :: rest) (cur ++ [c]) inQ out

/-- `parseCsvLine` (server.js:107-129): split one line on the delimiter
with doubled-quote handling, then trim every field. -/
def parseCsvLine (line : Str) (delim : Str) : List Str :=
  (parseCsvLineGo delim line [] false []).map jsTrim

/-- The `{headers, rows}` result of `parseCsv`; a row object is modelled
as an association list built with JS property-assignment semantics. -/
structure CsvResult where
  headers : List Str
  rows : List (List (Str × Str))
deriving Repr, DecidableEq

/-- JS object property assignment `obj[k] = v`: overwrite the binding in
place when the key exists, append otherwise. -/
def objSet (obj : List (Str × Str)) (k : Str) (v : Str) : List (Str × Str) :=
  match obj with
  | [] => [(k, v)]
  | (k', v') :: rest => if k' = k then (k, v) :: rest else (k', v') :: objSet rest k v

/-- JS object property read `obj[k]`, `none` when the key is absent
(i.e. the JS value `undefined`). -/
def rowGet (row : List (Str × Str)) (k : Str) : Option Str :=
  (row.find? (fun p => p.1 == k)).map (fun p => p.2)

/-- Row assembly of `parseCsv` (server.js:143-150):
`headers.forEach((h, i) => row[h] = cols[i] || '')`. -/
def buildRow (headers : List Str) (cols : List Str) : List (Str × Str) :=
  headers.enum.foldl (fun row p => objSet row p.2 (cols.getD p.1 [])) []

/-- `parseCsv` (server.js:131-152).  Note the delimiter auto-detection of
line 141: the fallback test is `includes` of the TWO-character sequence
backslash-t (the JS source writes the literal `'\\t'`), not of the tab
character. -/
def parseCsv (text : Str) : CsvResult :=
  let lines := (((text.filter (fun c => c != '\r')).splitOn '\n').map jsTrim).filter
    (fun l => !l.isEmpty && !startsWithChar l '#')
  match lines with
  | [] => ⟨[], []⟩
  | l0 :: rest =>
    let delimiter := if jsIncludes l0 ",".data then ",".data
                     else if jsIncludes l0 "\\t".data then "\\t".data else ",".data
    let headers := parseCsvLine l0 delimiter
    let rows := rest.map (fun line => buildRow headers (parseCsvLine line delimiter))
    ⟨headers, rows⟩

/-- `parseBool` (server.js:154-157); the argument is `value ?? ''`
collapsed: `none` stands for an absent (`undefined`) property. -/
def parseBool (value : Option Str) : Bool :=
  let v := jsLower (jsTrim (value.getD []))
  (["1".data, "true".data, "yes".data, "y".data, "on".data] : List Str).contains v

/-- `parseMode` (server.js:159-165). -/
def parseMode (value : Option Str) : Str :=
  let m := jsUpper (jsTrim (value.getD []))
  if (["D".data, "T".data, "DE".data, "TE".data] : List Str).contains m then m else "D".data

/-- `clampText` (server.js:100-105): `none` (a non-string JS value)
yields the empty string, a string is trimmed and cut to `max`. -/
def clampText (value : Option Str) (max : Nat) : Str :=
  match value with
  | none => []
  | some s => (jsTrim s).take max

/-- Value of a nonempty decimal digit string. -/
def digitsVal (ds : Str) : Nat := ds.foldl (fun n c => n * 10 + (c.toNat - 48)) 0

/-- Model of the JS `Number(x)` coercion restricted to what the tgid
checks consume: `none` is an absent property (`Number(undefined)` is NaN)
or a string that does not denote an integer; the empty/blank string
coerces to 0; optionally signed decimal digit strings coerce to their
value.  Numeric forms whose integrality this model does not decide
(fractions, exponents, hex) are mapped to `none`, which the callers
treat exactly like NaN: the row is rejected. -/
def jsNumberInt (value : Option Str) : Option Int :=
  match value with
  | none => none
  | some s =>
    let t := jsTrim s
    if t = [] then some 0
    else if t.all Char.isDigit then some (digitsVal t : Int)
    else
      match t with
      | '-' :: ds => if ds ≠ [] ∧ ds.all Char.isDigit then some (-(digitsVal ds : Int)) else none
      | '+' :: ds => if ds ≠ [] ∧ ds.all Char.isDigit then some (digitsVal ds : Int) else none
      | _ => none

/-- The JS template rendering of a possibly-undefined row field, as it
appears inside the invalid-tgid error message. -/
def invalidTgidMsg (rowNo : Nat) (raw : Str) : Str :=
  "Row ".data ++ natToStr rowNo ++ ": invalid tgid \x27".data ++ raw ++ "\x27".data

/-- The per-row body of `normalizeTalkgroupsCsv` (server.js:245-274):
either the row-indexed error string or the normalized entry. -/
def csvRowEntry (row : List (Str × Str)) (rowNo : Nat) : Except Str Entry :=
  let tgidRaw := rowGet row "tgid".data
  let tgidCheck : Option Int :=
    match jsNumberInt tgidRaw with
    | none => none
    | some t => if t < 0 ∨ t > 65535 then none else some t
  match tgidCheck with
  | none => .error (invalidTgidMsg rowNo (tgidRaw.getD "undefined".data))
  | some tgid =>
    let label := clampText (rowGet row "label".data) 128
    if label = [] then .error ("Row ".data ++ natToStr rowNo ++ ": label is required".data)
    else
      let mode := parseMode (rowGet row "mode".data)
      let encrypted := if rowGet row "encrypted".data = some [] then strEndsWith mode "E".data
                       else parseBool (rowGet row "encrypted".data)
      let category0 := clampText (rowGet row "category".data) 64
      .ok { tgid := tgid
            label := label
            mode := mode
            encrypted := encrypted
            category := if category0 = [] then "uncategorized".data else category0
            favorite := parseBool (rowGet row "favorite".data)
            filterAction := if encrypted then "deny".data else "allow".data
            enabled := if rowGet row "enabled".data = some [] then true else parseBool (rowGet row "enabled".data) }

/-- `Map.prototype.set`: overwrite in place when the key exists (keeping
its position), append otherwise (server.js:264). -/
def mapSet (m : List (Int × Entry)) (k : Int) (v : Entry) : List (Int × Entry) :=
  match m with
  | [] => [(k, v)]
  | (k', v') :: rest => if k' = k then (k, v) :: rest else (k', v') :: mapSet rest k v

/-- The error list and dedupe map accumulated by the row loop of
`normalizeTalkgroupsCsv`. -/
structure TgAcc where
  errors : List Str
  dedupe : List (Int × Entry)
deriving Repr, DecidableEq

/-- One iteration of the row loop of `normalizeTalkgroupsCsv`
(server.js:245-274); the pair carries the 0-based row index. -/
def tgCsvStep (acc : TgAcc) (p : Nat × List (Str × Str)) : TgAcc :=
  match csvRowEntry p.2 (p.1 + 2) with
  | .error e => { acc with errors := acc.errors ++ [e] }
  | .ok entry => { acc with dedupe := mapSet acc.dedupe entry.tgid entry }

/-- Stable insertion of an entry into an ascending-by-tgid list: the
entry goes after every element whose tgid is not greater. -/
def insertByTgid (e : Entry) : List Entry → List Entry
  | [] => [e]
  | x :: xs => if e.tgid < x.tgid then e :: x :: xs else x :: insertByTgid e xs

/-- Model of `Array.prototype.sort` with comparator
`(a, b) => a.tgid - b.tgid`: the stable ascending sort by tgid,
realized as stable insertion in input order. -/
def sortByTgid (l : List Entry) : List Entry :=
  l.foldl (fun acc e => insertByTgid e acc) []

/-- The `{errors, entries}` result of the talkgroup normalizers. -/
structure NormEntriesResult where
  errors : List Str
  entries : List Entry
deriving Repr, DecidableEq

/-- `normalizeTalkgroupsCsv` (server.js:230-280). -/
def normalizeTalkgroupsCsv (csvText : Str) : NormEntriesResult :=
  let parsed := parseCsv csvText
  let hdrErrors := ((["tgid".data, "label".data] : List Str).filter
      (fun k => !parsed.headers.contains k)).map
      (fun k => "Missing required CSV header: ".data ++ k)
  if hdrErrors ≠ [] then ⟨hdrErrors, []⟩
  else
    let acc := parsed.rows.enum.foldl tgCsvStep ⟨[], []⟩
    ⟨acc.errors, sortByTgid (acc.dedupe.map (fun p => p.2))⟩

/-- One structured entry given to `normalizeTalkgroupsEntries`
(server.js:282-306), a JSON object: `tgid` holds the value of
`Number(e.tgid)` when that is an integer and `none` otherwise (absent
property, non-numeric value); `encrypted` is `some b` when the property
is a JS boolean and `none` otherwise (the `typeof` test); the optional
string fields are `none` when absent or not strings; `favorite` is the
truthiness `!!e.favorite` of the property. -/
structure RawEntry where
  tgid : Option Int
  label : Option Str
  mode : Option Str
  encrypted : Option Bool
  category : Option Str
  favorite : Bool
  enabled : Option Bool
deriving Repr, DecidableEq

/-- The per-entry body of `normalizeTalkgroupsEntries`
(server.js:285-304) at 0-based index `i`. -/
def rawEntryNorm (e : RawEntry) (i : Nat) : Except Str Entry :=
  let tgidCheck : Option Int :=
    match e.tgid with
    | none => none
    | some t => if t < 0 ∨ t > 65535 then none else some t
  match tgidCheck with
  | none => .error (invalidTgidMsg (i + 1)
      (match e.tgid with | none => "undefined".data | some t => intToStr t))
  | some tgid =>
    let mode := parseMode e.mode
    let encrypted := match e.encrypted with
      | some b => b
      | none => strEndsWith mode "E".data
    let labelRaw : Option Str := match e.label with
      | some s => if s = [] then some ("TG ".data ++ intToStr tgid) else some s
      | none => some ("TG ".data ++ intToStr tgid)
    let catRaw : Option Str := match e.category with
      | some s => if s = [] then some "uncategorized".data else some s
      | none => some "uncategorized".data
    let category0 := clampText catRaw 64
    .ok { tgid := tgid
          label := clampText labelRaw 128
          mode := mode
          encrypted := encrypted
          category := if category0 = [] then "uncategorized".data else category0
          favorite := e.favorite
          filterAction := if encrypted then "deny".data else "allow".data
          enabled := decide (e.enabled ≠ some false) }

/-- One iteration of the entry loop of `normalizeTalkgroupsEntries`. -/
def tgEntriesStep (acc : List Str × List Entry) (p : Nat × RawEntry) : List Str × List Entry :=
  match rawEntryNorm p.2 p.1 with
  | .error e => (acc.1 ++ [e], acc.2)
  | .ok entry => (acc.1, acc.2 ++ [entry])

/-- `normalizeTalkgroupsEntries` (server.js:282-306). -/
def normalizeTalkgroupsEntries (entries : List RawEntry) : NormEntriesResult :=
  let acc := entries.enum.foldl tgEntriesStep ([], [])
  ⟨acc.1, sortByTgid acc.2⟩

/-- The value `Map.get` would see: first (unique) binding for a key. -/
def lookupVal (m : List (Int × Entry)) (t : Int) : Option Entry :=
  (m.find? (fun p => p.1 == t)).map (fun p => p.2)

/-- The well-formed rows of a list of enumerated CSV rows, in input
order (spec-side characterization used to state last-occurrence-wins). -/
def validOfPairs (pairs : List (Nat × List (Str × Str))) : List Entry :=
  pairs.filterMap (fun p => (csvRowEntry p.2 (p.1 + 2)).toOption)

/-- The well-formed rows of a talkgroups CSV in input order: the rows the
loop of `normalizeTalkgroupsCsv` accepts, before deduplication/sorting. -/
def csvValidEntries (csvText : Str) : List Entry :=
  if (["tgid".data, "label".data] : List Str).all
      (fun k => (parseCsv csvText).headers.contains k) then
    validOfPairs (parseCsv csvText).rows.enum
  else []

theorem insertByTgid_perm (e : Entry) (l : List Entry) :
    (insertByTgid e l).Perm (e :: l) := by
  induction l with
  | nil => rfl
  | cons x xs ih =>
    by_cases h : e.tgid < x.tgid
    · rw [insertByTgid, if_pos h]
    · rw [insertByTgid, if_neg h]
      exact (ih.cons x).trans (List.Perm.swap e x xs)

theorem sortByTgid_perm (l : List Entry) : (sortByTgid l).Perm l := by
  have key : ∀ (l acc : List Entry),
      (l.foldl (fun acc e => insertByTgid e acc) acc).Perm (l ++ acc) := by
    intro l
    induction l with
    | nil => intro acc; simp
    | cons e rest ih =>
      intro acc
      rw [List.foldl_cons]
      have h1 := ih (insertByTgid e acc)
      have h2 : (rest ++ insertByTgid e acc).Perm (rest ++ e :: acc) :=
        (insertByTgid_perm e acc).append_left rest
      have h3 : (rest ++ e :: acc).Perm (e :: (rest ++ acc)) := List.perm_middle
      exact (h1.trans (h2.trans h3))
  simpa using key l []

theorem mem_sortByTgid {e : Entry} {l : List Entry} :
    e ∈ sortByTgid l ↔ e ∈ l :=
  (sortByTgid_perm l).mem_iff

theorem mem_insertByTgid {y e : Entry} {l : List Entry} :
    y ∈ insertByTgid e l ↔ y = e ∨ y ∈ l :=
  (insertByTgid_perm e l).mem_iff.trans (by simp)

theorem insertByTgid_sorted (e : Entry) (l : List Entry)
    (h : l.Pairwise (fun a b => a.tgid ≤ b.tgid)) :
    (insertByTgid e l).Pairwise (fun a b => a.tgid ≤ b.tgid) := by
  induction l with
  | nil => simp [insertByTgid]
  | cons x xs ih =>
    rcases List.pairwise_cons.1 h with ⟨hx, hxs⟩
    by_cases hc : e.tgid < x.tgid
    · rw [insertByTgid, if_pos hc]
      refine List.pairwise_cons.2 ⟨?_, h⟩
      intro y hy
      rcases List.mem_cons.1 hy with rfl | hy2
      · omega
      · have := hx y hy2
        omega
    · rw [insertByTgid, if_neg hc]
      refine List.pairwise_cons.2 ⟨?_, ih hxs⟩
      intro y hy
      rcases mem_insertByTgid.1 hy with rfl | hy2
      · omega
      · exact hx y hy2

theorem sortByTgid_sorted (l : List Entry) :
    (sortByTgid l).Pairwise (fun a b => a.tgid ≤ b.tgid) := by
  have key : ∀ (l acc : List Entry),
      acc.Pairwise (fun a b => a.tgid ≤ b.tgid) →
      (l.foldl (fun acc e => insertByTgid e acc) acc).Pairwise (fun a b => a.tgid ≤ b.tgid) := by
    intro l
    induction l with
    | nil => exact fun acc h => h
    | cons e rest ih =>
      intro acc hacc
      rw [List.foldl_cons]
      exact ih _ (insertByTgid_sorted e acc hacc)
  exact key l [] (by simp)

theorem csvRowEntry_filterAction (row : List (Str × Str)) (rowNo : Nat) (e : Entry)
    (h : csvRowEntry row rowNo = .ok e) :
    e.filterAction = (if e.encrypted then "deny".data else "allow".data) := by
  unfold csvRowEntry at h
  simp only [] at h
  rcases hv : jsNumberInt (rowGet row "tgid".data) with _ | t
  · rw [hv] at h
    simp only [] at h
    exact absurd h (by simp)
  · rw [hv] at h
    simp only [] at h
    by_cases hr : t < 0 ∨ t > 65535
    · rw [if_pos hr] at h
      simp only [] at h
      exact absurd h (by simp)
    · rw [if_neg hr] at h
      simp only [] at h
      by_cases hl : clampText (rowGet row "label".data) 128 = []
      · rw [if_pos hl] at h
        exact absurd h (by simp)
      · rw [if_neg hl] at h
        simp only [Except.ok.injEq] at h
        subst h
        rfl

theorem rawEntryNorm_filterAction (r : RawEntry) (i : Nat) (e : Entry)
    (h : rawEntryNorm r i = .ok e) :
    e.filterAction = (if e.encrypted then "deny".data else "allow".data) := by
  unfold rawEntryNorm at h
  simp only [] at h
  rcases hv : r.tgid with _ | t
  · rw [hv] at h
    simp only [] at h
    exact absurd h (by simp)
  · rw [hv] at h
    simp only [] at h
    by_cases hr : t < 0 ∨ t > 65535
    · rw [if_pos hr] at h
      simp only [] at h
      exact absurd h (by simp)
    · rw [if_neg hr] at h
      simp only [Except.ok.injEq] at h
      subst h
      rfl

theorem mem_mapSet {kv : Int × Entry} {m : List (Int × Entry)} {k : Int} {v : Entry}
    (h : kv ∈ mapSet m k v) : kv = (k, v) ∨ kv ∈ m := by
  induction m with
  | nil => simpa [mapSet] using h
  | cons p rest ih =>
    obtain ⟨k', v'⟩ := p
    by_cases hk : k' = k
    · rw [mapSet, if_pos hk] at h
      rcases List.mem_cons.1 h with h1 | h1
      · exact Or.inl h1
      · exact Or.inr (List.mem_cons_of_mem _ h1)
    · rw [mapSet, if_neg hk] at h
      rcases List.mem_cons.1 h with h1 | h1
      · exact Or.inr (by simp [h1])
      · rcases ih h1 with h2 | h2
        · exact Or.inl h2
        · exact Or.inr (List.mem_cons_of_mem _ h2)

theorem foldl_tgCsvStep_dedupe_pred (Q : Int × Entry → Prop)
    (hok : ∀ row rowNo e, csvRowEntry row rowNo = .ok e → Q (e.tgid, e))
    (pairs : List (Nat × List (Str × Str))) :
    ∀ (acc : TgAcc), (∀ kv ∈ acc.dedupe, Q kv) →
      ∀ kv ∈ (pairs.foldl tgCsvStep acc).dedupe, Q kv := by
  induction pairs with
  | nil => exact fun acc hacc kv hkv => hacc kv hkv
  | cons p rest ih =>
    intro acc hacc kv hkv
    rw [List.foldl_cons] at hkv
    refine ih (tgCsvStep acc p) ?_ kv hkv
    intro kv2 hkv2
    unfold tgCsvStep at hkv2
    split at hkv2
    · exact hacc kv2 hkv2
    · rename_i entry hentry
      simp only at hkv2
      rcases mem_mapSet hkv2 with h1 | h1
      · rw [h1]
        exact hok _ _ _ hentry
      · exact hacc kv2 h1

theorem foldl_tgEntriesStep_pred (P : Entry → Prop)
    (hok : ∀ r i e, rawEntryNorm r i = .ok e → P e)
    (pairs : List (Nat × RawEntry)) :
    ∀ (acc : List Str × List Entry), (∀ e ∈ acc.2, P e) →
      ∀ e ∈ (pairs.foldl tgEntriesStep acc).2, P e := by
  induction pairs with
  | nil => exact fun acc hacc e he => hacc e he
  | cons p rest ih =>
    intro acc hacc e he
    rw [List.foldl_cons] at he
    refine ih (tgEntriesStep acc p) ?_ e he
    intro e2 he2
    unfold tgEntriesStep at he2
    split at he2
    · exact hacc e2 he2
    · rename_i entry hentry
      simp only at he2
      rcases List.mem_append.1 he2 with h1 | h1
      · exact hacc e2 h1
      · rw [List.mem_singleton.1 h1]
        exact hok _ _ _ hentry

/-- C3 (counterexample): a CSV row with mode `D` and an explicit
`encrypted=true` cell yields an entry whose mode does not end in `E`
but whose filterAction is `deny` — refuting the claim that filterAction
is `deny` exactly when the mode ends in `E`. -/
theorem c3_counterexample :
    ∃ e ∈ (normalizeTalkgroupsCsv "tgid,label,mode,encrypted\n1,A,D,true".data).entries,
      strEndsWith e.mode "E".data = false ∧ e.filterAction = "deny".data := by
  decide

/-- C3 (amended): for every entry produced by `normalizeTalkgroupsCsv`
or `normalizeTalkgroupsEntries`, filterAction is `deny` when the entry's
encrypted flag is set and `allow` otherwise; the encrypted flag itself
defaults to the mode ending in `E` only when the input carries no
explicit encrypted value. -/
theorem c3_filterAction_follows_encrypted :
    (∀ csvText : Str, ∀ e ∈ (normalizeTalkgroupsCsv csvText).entries,
      e.filterAction = (if e.encrypted then "deny".data else "allow".data)) ∧
    (∀ raws : List RawEntry, ∀ e ∈ (normalizeTalkgroupsEntries raws).entries,
      e.filterAction = (if e.encrypted then "deny".data else "allow".data)) := by
  constructor
  · intro csvText e he
    unfold normalizeTalkgroupsCsv at he
    simp only [] at he
    split at he
    · simp at he
    · simp only [] at he
      rw [mem_sortByTgid] at he
      obtain ⟨kv, hkv, hkve⟩ := List.mem_map.1 he
      rw [← hkve]
      exact foldl_tgCsvStep_dedupe_pred
        (fun kv => kv.2.filterAction = (if kv.2.encrypted then "deny".data else "allow".data))
        (fun row rowNo e h => csvRowEntry_filterAction row rowNo e h)
        _ _ (by simp) kv hkv
  · intro raws e he
    unfold normalizeTalkgroupsEntries at he
    simp only [] at he
    rw [mem_sortByTgid] at he
    exact foldl_tgEntriesStep_pred _
      (fun r i e h => rawEntryNorm_filterAction r i e h) _ _ (by simp) e he

/-- Witness for C3 (amended) at one concrete CSV input and one concrete
structured input. -/
theorem c3_filterAction_follows_encrypted_witness :
    ((⟨1, ['A'], ['D'], false, "uncategorized".data, false, "allow".data, false⟩ : Entry) ∈
        (normalizeTalkgroupsCsv "tgid,label\n1,A".data).entries ∧
      (⟨1, ['A'], ['D'], false, "uncategorized".data, false, "allow".data, false⟩ : Entry).filterAction =
        (if (⟨1, ['A'], ['D'], false, "uncategorized".data, false, "allow".data, false⟩ : Entry).encrypted
          then "deny".data else "allow".data)) ∧
    ((⟨2, "TG 2".data, ['D'], false, "uncategorized".data, false, "allow".data, true⟩ : Entry) ∈
        (normalizeTalkgroupsEntries [⟨some 2, none, none, none, none, false, none⟩]).entries ∧
      (⟨2, "TG 2".data, ['D'], false, "uncategorized".data, false, "allow".data, true⟩ : Entry).filterAction =
        (if (⟨2, "TG 2".data, ['D'], false, "uncategorized".data, false, "allow".data, true⟩ : Entry).encrypted
          then "deny".data else "allow".data)) :=
  ⟨⟨by decide, c3_filterAction_follows_encrypted.1 "tgid,label\n1,A".data
      ⟨1, ['A'], ['D'], false, "uncategorized".data, false, "allow".data, false⟩ (by decide)⟩,
   ⟨by decide, c3_filterAction_follows_encrypted.2 [⟨some 2, none, none, none, none, false, none⟩]
      ⟨2, "TG 2".data, ['D'], false, "uncategorized".data, false, "allow".data, true⟩ (by decide)⟩⟩

theorem lookupVal_cons (k : Int) (v : Entry) (m : List (Int × Entry)) (t : Int) :
    lookupVal ((k, v) :: m) t = if k = t then some v else lookupVal m t := by
  by_cases h : k = t
  · have hb : (k == t) = true := by simp [h]
    simp [lookupVal, List.find?, hb, h]
  · have hb : (k == t) = false := by simp [h]
    simp [lookupVal, List.find?, hb, h]

theorem lookupVal_mapSet (m : List (Int × Entry)) (k : Int) (v : Entry) (t : Int) :
    lookupVal (mapSet m k v) t = if k = t then some v else lookupVal m t := by
  induction m with
  | nil =>
    show lookupVal [(k, v)] t = _
    rw [lookupVal_cons]
  | cons p rest ih =>
    obtain ⟨k', v'⟩ := p
    by_cases hk : k' = k
    · subst hk
      rw [mapSet, if_pos rfl, lookupVal_cons, lookupVal_cons]
      by_cases h : k' = t <;> simp [h]
    · rw [mapSet, if_neg hk, lookupVal_cons, lookupVal_cons, ih]
      by_cases h1 : k' = t
      · subst h1
        have h2 : ¬ k = k' := fun hc => hk hc.symm
        simp [h2]
      · simp [h1]

theorem mapSet_fst_mem {x : Int} {m : List (Int × Entry)} {k : Int} {v : Entry}
    (h : x ∈ (mapSet m k v).map Prod.fst) : x = k ∨ x ∈ m.map Prod.fst := by
  obtain ⟨kv, hkv, hx⟩ := List.mem_map.1 h
  rcases mem_mapSet hkv with h1 | h1
  · left
    rw [h1] at hx
    exact hx.symm
  · right
    exact List.mem_map.2 ⟨kv, h1, hx⟩

theorem mapSet_fst_nodup {m : List (Int × Entry)} {k : Int} {v : Entry}
    (h : (m.map Prod.fst).Nodup) : ((mapSet m k v).map Prod.fst).Nodup := by
  induction m with
  | nil => simp [mapSet]
  | cons p rest ih =>
    obtain ⟨k', v'⟩ := p
    rw [List.map_cons] at h
    rcases List.nodup_cons.1 h with ⟨hk', hrest⟩
    by_cases hk : k' = k
    · subst hk
      rw [mapSet, if_pos rfl, List.map_cons, List.nodup_cons]
      exact ⟨hk', hrest⟩
    · rw [mapSet, if_neg hk]
      rw [List.map_cons, List.nodup_cons]
      refine ⟨?_, ih hrest⟩
      intro hmem
      rcases mapSet_fst_mem hmem with h1 | h1
      · exact hk h1
      · exact hk' h1

theorem foldl_tgCsvStep_keys_nodup (pairs : List (Nat × List (Str × Str))) :
    ∀ (acc : TgAcc), (acc.dedupe.map Prod.fst).Nodup →
      (((pairs.foldl tgCsvStep acc).dedupe).map Prod.fst).Nodup := by
  induction pairs with
  | nil => exact fun acc h => h
  | cons p rest ih =>
    intro acc hacc
    rw [List.foldl_cons]
    refine ih (tgCsvStep acc p) ?_
    unfold tgCsvStep
    split
    · exact hacc
    · exact mapSet_fst_nodup hacc

theorem foldl_tgCsvStep_lookup (pairs : List (Nat × List (Str × Str))) :
    ∀ (acc : TgAcc) (t : Int),
      lookupVal ((pairs.foldl tgCsvStep acc).dedupe) t =
        match (validOfPairs pairs).reverse.find? (fun e => e.tgid == t) with
        | some e => some e
        | none => lookupVal acc.dedupe t := by
  induction pairs with
  | nil => intro acc t; rfl
  | cons p rest ih =>
    intro acc t
    rw [List.foldl_cons]
    rcases hrow : csvRowEntry p.2 (p.1 + 2) with msg | entry
    · have hstep : tgCsvStep acc p = { acc with errors := acc.errors ++ [msg] } := by
        unfold tgCsvStep
        rw [hrow]
      have hval : validOfPairs (p :: rest) = validOfPairs rest := by
        unfold validOfPairs
        rw [List.filterMap_cons, hrow]
        rfl
      rw [hstep, hval, ih]
    · have hstep : tgCsvStep acc p = { acc with dedupe := mapSet acc.dedupe entry.tgid entry } := by
        unfold tgCsvStep
        rw [hrow]
      have hval : validOfPairs (p :: rest) = entry :: validOfPairs rest := by
        unfold validOfPairs
        rw [List.filterMap_cons, hrow]
        rfl
      rw [hstep, hval, ih]
      rw [List.reverse_cons, List.find?_append]
      rcases hfind : (validOfPairs rest).reverse.find? (fun e => e.tgid == t) with _ | e2 <;>
        simp only [hfind]
      · rw [Option.none_or, lookupVal_mapSet]
        by_cases ht : entry.tgid = t
        · have hb : (entry.tgid == t) = true := by simp [ht]
          simp [List.find?, hb, ht]
        · have hb : (entry.tgid == t) = false := by simp [ht]
          simp [List.find?, hb, ht]
      · simp

theorem find_map_snd (m : List (Int × Entry)) (hinv : ∀ kv ∈ m, kv.2.tgid = kv.1) (t : Int) :
    (m.map Prod.snd).find? (fun e => e.tgid == t) = lookupVal m t := by
  induction m with
  | nil => rfl
  | cons p rest ih =>
    obtain ⟨k, v⟩ := p
    have hv : v.tgid = k := hinv (k, v) (by simp)
    rw [List.map_cons, lookupVal_cons]
    by_cases h : k = t
    · have hb : (v.tgid == t) = true := by simp [hv, h]
      simp [List.find?, hb, h]
    · have hb : (v.tgid == t) = false := by simp [hv, h]
      have hrec := ih (fun kv hkv => hinv kv (List.mem_cons_of_mem _ hkv))
      simp [List.find?, hb, h, hrec]

theorem find?_perm_unique {l l' : List Entry} (hp : l.Perm l')
    (hnd : (l.map (fun e => e.tgid)).Nodup) (t : Int) :
    l.find? (fun e => e.tgid == t) = l'.find? (fun e => e.tgid == t) := by
  rcases hf : l'.find? (fun e => e.tgid == t) with _ | x
  · rw [hf, List.find?_eq_none]
    rw [List.find?_eq_none] at hf
    intro x hx
    exact hf x (hp.mem_iff.1 hx)
  · have hpx := List.find?_some hf
    have hx : x ∈ l := hp.mem_iff.2 (List.mem_of_find?_eq_some hf)
    rcases hf2 : l.find? (fun e => e.tgid == t) with _ | y
    · rw [List.find?_eq_none] at hf2
      exact absurd hpx (by simpa using hf2 x hx)
    · have hpy := List.find?_some hf2
      have hy := List.mem_of_find?_eq_some hf2
      have hxy : y = x := by
        refine List.inj_on_of_nodup_map hnd hy hx ?_
        have h1 : y.tgid = t := by simpa using hpy
        have h2 : x.tgid = t := by simpa using hpx
        rw [h1, h2]
      rw [hf2, hf, hxy]

theorem map_tgid_snd (m : List (Int × Entry)) (hinv : ∀ kv ∈ m, kv.2.tgid = kv.1) :
    (m.map Prod.snd).map (fun e => e.tgid) = m.map Prod.fst := by
  rw [List.map_map]
  exact List.map_congr_left (fun kv hkv => hinv kv hkv)

/-- C4 (counterexample): two structured entries with the same tgid are
both kept by `normalizeTalkgroupsEntries` — the structured path performs
no deduplication, refuting the claim that both normalizers keep at most
one entry per tgid. -/
theorem c4_counterexample :
    ((normalizeTalkgroupsEntries
        [⟨some 5, some ['A'], none, none, none, false, none⟩,
         ⟨some 5, some ['B'], none, none, none, false, none⟩]).entries.map
       (fun e => e.tgid)) = [5, 5] := by decide

/-- C4 (amended): `normalizeTalkgroupsCsv` deduplicates by tgid with the
last well-formed occurrence winning and returns the entries sorted
ascending by tgid; `normalizeTalkgroupsEntries` returns all well-formed
entries sorted ascending by tgid but keeps duplicate tgids. -/
theorem c4_dedupe_last_wins_sorted :
    (∀ csvText : Str,
      ((normalizeTalkgroupsCsv csvText).entries.map (fun e => e.tgid)).Nodup ∧
      (normalizeTalkgroupsCsv csvText).entries.Pairwise (fun a b => a.tgid ≤ b.tgid) ∧
      (∀ t : Int, (normalizeTalkgroupsCsv csvText).entries.find? (fun e => e.tgid == t) =
        (csvValidEntries csvText).reverse.find? (fun e => e.tgid == t))) ∧
    (∀ raws : List RawEntry,
      (normalizeTalkgroupsEntries raws).entries.Pairwise (fun a b => a.tgid ≤ b.tgid)) := by
  constructor
  · intro csvText
    by_cases hc1 : (parseCsv csvText).headers.contains "tgid".data
    case neg =>
      have hm1 : ("tgid".data : Str) ∉ (parseCsv csvText).headers := by simpa using hc1
      have hent : (normalizeTalkgroupsCsv csvText).entries = [] := by
        unfold normalizeTalkgroupsCsv
        simp [hm1, List.filter_cons, List.filter_nil]
      have hval : csvValidEntries csvText = [] := by
        unfold csvValidEntries
        rw [if_neg (by simp [hm1])]
      rw [hent, hval]
      exact ⟨by simp, by simp, fun t => rfl⟩
    by_cases hc2 : (parseCsv csvText).headers.contains "label".data
    case neg =>
      have hm1 : ("tgid".data : Str) ∈ (parseCsv csvText).headers := by simpa using hc1
      have hm2 : ("label".data : Str) ∉ (parseCsv csvText).headers := by simpa using hc2
      have hent : (normalizeTalkgroupsCsv csvText).entries = [] := by
        unfold normalizeTalkgroupsCsv
        simp [hm1, hm2, List.filter_cons, List.filter_nil]
      have hval : csvValidEntries csvText = [] := by
        unfold csvValidEntries
        rw [if_neg (by simp [hm2])]
      rw [hent, hval]
      exact ⟨by simp, by simp, fun t => rfl⟩
    · have hm1 : ("tgid".data : Str) ∈ (parseCsv csvText).headers := by simpa using hc1
      have hm2 : ("label".data : Str) ∈ (parseCsv csvText).headers := by simpa using hc2
      have hent : (normalizeTalkgroupsCsv csvText).entries =
          sortByTgid ((((parseCsv csvText).rows.enum.foldl tgCsvStep ⟨[], []⟩).dedupe).map
            (fun p => p.2)) := by
        unfold normalizeTalkgroupsCsv
        simp [hm1, hm2, List.filter_cons, List.filter_nil]
      have hval : csvValidEntries csvText = validOfPairs (parseCsv csvText).rows.enum := by
        unfold csvValidEntries
        rw [if_pos (by simp [hm1, hm2])]
      set m := ((parseCsv csvText).rows.enum.foldl tgCsvStep ⟨[], []⟩).dedupe with hm
      have htg : ∀ kv ∈ m, kv.2.tgid = kv.1 :=
        foldl_tgCsvStep_dedupe_pred (fun kv => kv.2.tgid = kv.1)
          (fun _ _ _ _ => rfl) _ _ (by simp)
      have hnd0 : (m.map Prod.fst).Nodup :=
        foldl_tgCsvStep_keys_nodup _ _ (by simp)
      have hndv : ((m.map Prod.snd).map (fun e => e.tgid)).Nodup := by
        rw [map_tgid_snd m htg]
        exact hnd0
      have hperm : (sortByTgid (m.map Prod.snd)).Perm (m.map Prod.snd) :=
        sortByTgid_perm _
      have hndsorted : ((sortByTgid (m.map Prod.snd)).map (fun e => e.tgid)).Nodup :=
        (hperm.map (fun e => e.tgid)).nodup_iff.2 hndv
      have hsnd : m.map (fun p => p.2) = m.map Prod.snd := rfl
      refine ⟨by rw [hent, hsnd]; exact hndsorted, by rw [hent]; exact sortByTgid_sorted _, ?_⟩
      intro t
      rw [hent, hsnd, hval]
      have h1 : (sortByTgid (m.map Prod.snd)).find? (fun e => e.tgid == t) =
          (m.map Prod.snd).find? (fun e => e.tgid == t) :=
        find?_perm_unique hperm hndsorted t
      rw [h1, find_map_snd m htg t, foldl_tgCsvStep_lookup]
      rcases hfind : (validOfPairs (parseCsv csvText).rows.enum).reverse.find?
          (fun e => e.tgid == t) with _ | e2 <;> simp only [hfind] <;> rfl
  · intro raws
    unfold normalizeTalkgroupsEntries
    simp only []
    exact sortByTgid_sorted _

/-- C6: the delimiter fallback never selects the tab character.  At the
tab-separated, comma-free input `a<TAB>b` / `x<TAB>y` the tokenizer keeps
the comma delimiter (line 141 tests `includes` of the two-character
backslash-t sequence, not of the tab character), so the header line stays
one field containing a literal tab instead of being split into two. -/
theorem c6_tab_fallback_failing_input :
    (parseCsv "a\tb\nx\ty".data).headers = [['a', '\t', 'b']] ∧
    (parseCsv "a\tb\nx\ty".data).rows = [[(['a', '\t', 'b'], ['x', '\t', 'y'])]] ∧
    jsIncludes "a\tb".data "\\t".data = false := by
  exact ⟨by decide, by decide, by decide⟩

/-- The normalized Site entity (server.js:216-224). -/
structure Site where
  name : Str
  nac : Option Str
  sysid : Option Str
  wacn : Option Str
  controlChannels : List Str
  alternateChannels : List Str
  bandplan : Option Str
deriving Repr, DecidableEq

/-- The `system` block of a `<profile>.profile.json` document. -/
structure SystemDoc where
  name : Option Str
  sysid : Option Str
  wacn : Option Str
  nac : Option Str
  bandplan : Option Str
  sites : List Site
deriving Repr, DecidableEq

/-- A `<profile>.profile.json` document; `none` fields are absent
(or non-string) JSON properties. -/
structure ProfDoc where
  label : Option Str
  description : Option Str
  notes : Option Str
  system : Option SystemDoc
  command : Option (List Str)
  updatedAt : Option Str
  importSource : Option Str
deriving Repr, DecidableEq

/-- A `<profile>.talkgroups.json` document (server.js:321-325). -/
structure TgDoc where
  updatedAt : Str
  filter : FilterPolicy
  entries : List Entry
deriving Repr, DecidableEq

/-- The runtime-directory JSON documents: the filter mirror, the
reload-request marker and the active-profile pointer. -/
inductive RtDoc where
  | filterDoc (generatedAt : Str) (profile : Str) (fp : FilterPolicy)
  | reloadDoc (requestedAt : Str) (reason : Str) (profile : Option Str)
  | activeDoc (profile : Str) (changedAt : Str) (changedBy : Str)
deriving Repr, DecidableEq

/-- A user-supplied import JSON document as read by
`POST /api/import/profile/:profile/from-json-file` (server.js:1156-1200):
the fields the handler consumes.  `talkgroupsEntries` is `raw.talkgroups.entries`
(`none` when `raw.talkgroups?.entries` is not an array); a present
`system` always carries its `sites` array. -/
structure ImportDoc where
  label : Option Str
  description : Option Str
  notes : Option Str
  system : Option SystemDoc
  command : Option (List Str)
  talkgroupsEntries : Option (List RawEntry)
deriving Repr, DecidableEq

/-- The file-system state the engine touches: the text (TSV) files and
the parsed JSON documents of the profiles directory (including
user-dropped import JSON files), and the runtime directory's documents.
JSON files are modelled at the document level (`writeJson` serialization
is not byte-modelled); TSV files are modelled byte-exactly.  A profiles
directory file that is not valid JSON exists only as a text file, which
`readJson` maps to its fallback. -/
structure Store where
  textFiles : List (Str × Str)
  tgDocs : List (Str × TgDoc)
  profDocs : List (Str × ProfDoc)
  runtime : List (Str × RtDoc)
  importDocs : List (Str × ImportDoc)
deriving Repr, DecidableEq

/-- Overwrite-or-append of one file, the model of a whole-file write. -/
def fsSet {α : Type} (files : List (Str × α)) (k : Str) (v : α) : List (Str × α) :=
  match files with
  | [] => [(k, v)]
  | (k', v') :: rest => if k' = k then (k, v) :: rest else (k', v') :: fsSet rest k v

/-- Read of one file (`none` = the file does not exist). -/
def fsGet {α : Type} (files : List (Str × α)) (k : Str) : Option α :=
  (files.find? (fun p => p.1 == k)).map (fun p => p.2)

/-- The names `fs.readdirSync(PROFILES_DIR)` would list. -/
def profilesDirNames (s : Store) : List Str :=
  s.textFiles.map Prod.fst ++ s.tgDocs.map Prod.fst ++ s.profDocs.map Prod.fst ++
    s.importDocs.map Prod.fst

/-- `fs.existsSync` of a name inside the profiles directory. -/
def fsExists (s : Store) (name : Str) : Bool :=
  (profilesDirNames s).contains name

def trunkFileName (p : Str) : Str := p ++ ".trunk.tsv".data

def tagsFileName (p : Str) : Str := p ++ ".tags.tsv".data

def legacyTrunkName (p : Str) : Str := p ++ ".tsv".data

def talkgroupsFileName (p : Str) : Str := p ++ ".talkgroups.json".data

def profileFileName (p : Str) : Str := p ++ ".profile.json".data

def filterFileName (p : Str) : Str := p ++ ".filter.json".data

/-- A character allowed by the profile-name pattern `[A-Za-z0-9_-]`. -/
def isSafeNameChar (c : Char) : Bool :=
  c.isAlpha || c.isDigit || c == '_' || c == '-'

/-- `isSafeProfileName` (server.js:56-58): the name matches
`^[A-Za-z0-9_-]{1,64}$` (a non-string value is never safe). -/
def isSafeProfileName (name : Str) : Bool :=
  decide (1 ≤ name.length) && decide (name.length ≤ 64) && name.all isSafeNameChar

/-- JS `a || b` for an optional/empty string with a default. -/
def strOr (v : Option Str) (d : Str) : Str :=
  match v with
  | none => d
  | some s => if s = [] then d else s

/-- `profileDoc.system?.f` optional chaining. -/
def sysGet (doc : ProfDoc) (f : SystemDoc → Option Str) : Option Str :=
  match doc.system with
  | none => none
  | some sys => f sys

/-- The header row of the trunk file (server.js:389-399). -/
def trunkHeaderFields : List Str :=
  ["sysname".data, "site_name".data, "control_channel_list".data, "alt_channel_list".data,
   "nac".data, "sysid".data, "wacn".data, "bandplan".data, "tags_file".data]

/-- One site row of the trunk file (server.js:401-413). -/
def trunkRowFields (profile : Str) (profileDoc : ProfDoc) (site : Site) : List Str :=
  [strOr (sysGet profileDoc (fun sys => sys.name)) profile,
   site.name,
   joinSep ",".data site.controlChannels,
   joinSep ",".data site.alternateChannels,
   strOr site.nac (strOr (sysGet profileDoc (fun sys => sys.nac)) []),
   strOr site.sysid (strOr (sysGet profileDoc (fun sys => sys.sysid)) []),
   strOr site.wacn (strOr (sysGet profileDoc (fun sys => sys.wacn)) []),
   strOr site.bandplan (strOr (sysGet profileDoc (fun sys => sys.bandplan)) "P25 Auto".data),
   tagsFileName profile]

/-- The byte content `writeTrunkTsv` writes (server.js:386-415):
quoted header row, one quoted row per site, rows joined by newline,
trailing newline. -/
def writeTrunkTsvContent (profile : Str) (sites : List Site) (profileDoc : ProfDoc) : Str :=
  joinSep "\n".data
    (renderTsvRow trunkHeaderFields ::
      sites.map (fun site => renderTsvRow (trunkRowFields profile profileDoc site))) ++ "\n".data

/-- `writeTrunkTsv` (server.js:386-415) as a store operation. -/
def writeTrunkTsv (profile : Str) (sites : List Site) (profileDoc : ProfDoc) (s : Store) : Store :=
  { s with textFiles :=
      fsSet s.textFiles (trunkFileName profile) (writeTrunkTsvContent profile sites profileDoc) }

/-- One talkgroup row of the tags file (server.js:343-349). -/
def tagsRowFields (entry : Entry) : List Str :=
  [intToStr entry.tgid, entry.label, strOr (some entry.mode) "D".data]

/-- The byte content `writeTagsTsv` writes (server.js:340-351). -/
def writeTagsTsvContent (entries : List Entry) : Str :=
  joinSep "\n".data
    (renderTsvRow ["tgid".data, "tag".data, "mode".data] ::
      entries.map (fun entry => renderTsvRow (tagsRowFields entry))) ++ "\n".data

/-- `writeTagsTsv` (server.js:340-351) as a store operation. -/
def writeTagsTsv (profile : Str) (entries : List Entry) (s : Store) : Store :=
  { s with textFiles := fsSet s.textFiles (tagsFileName profile) (writeTagsTsvContent entries) }

/-- `ensureTagsFile` (server.js:377-384): when the profile's tags file is
missing, regenerate it from the stored talkgroups document (defaulting
to no entries). -/
def ensureTagsFile (profile : Str) (s : Store) : Store :=
  if fsExists s (tagsFileName profile) then s
  else
    let entries := match fsGet s.tgDocs (talkgroupsFileName profile) with
      | some doc => doc.entries
      | none => []
    writeTagsTsv profile entries s

/-- `migrateLegacyTrunkFile` (server.js:484-498): copy `<p>.tsv` to
`<p>.trunk.tsv` when only the legacy file exists. -/
def migrateLegacyTrunkFile (profile : Str) (s : Store) : Store :=
  if fsExists s (trunkFileName profile) then s
  else
    match fsGet s.textFiles (legacyTrunkName profile) with
    | none => s
    | some content =>
      { s with textFiles := fsSet s.textFiles (trunkFileName profile) content }

/-- A character allowed by the tags-file-name pattern `[A-Za-z0-9_.-]`. -/
def isTagNameChar (c : Char) : Bool :=
  c.isAlpha || c.isDigit || c == '_' || c == '.' || c == '-'

/-- The name test of `ensureNamedTagsFile` (server.js:353-357). -/
def validTagFileName (name : Str) : Bool :=
  decide (1 ≤ name.length) && decide (name.length ≤ 128) && name.all isTagNameChar &&
    strEndsWith (jsLower name) ".tags.tsv".data

/-- `ensureNamedTagsFile` (server.js:353-363): validate the name, create
a header-only tags file when missing; a bad name throws (the error). -/
def ensureNamedTagsFile (tagFileName : Str) (s : Store) : Except Str (Str × Store) :=
  let safe := jsTrim tagFileName
  if validTagFileName safe then
    if fsExists s safe then .ok (safe, s)
    else .ok (safe, { s with textFiles := fsSet s.textFiles safe "\"tgid\"\t\"tag\"\t\"mode\"\n".data })
  else .error ("Invalid tags file name: ".data ++ tagFileName)

/-- `findCaseInsensitiveProfileFile` (server.js:365-375). -/
def findCaseInsensitiveProfileFile (fileName : Str) (s : Store) : Option Str :=
  let target := jsLower fileName
  if target = [] then none
  else (profilesDirNames s).find? (fun n => jsLower n == target)

/-- `findTagFilesInFields` (server.js:477-482). -/
def findTagFilesInFields (fields : List Str) : List Str :=
  ((fields.filter (fun f => strEndsWith (jsLower f) ".tags.tsv".data)).map jsTrim).filter
    (fun f => !f.isEmpty)

/-- `path.isAbsolute`. -/
def isAbsolutePath (p : Str) : Bool := startsWithChar p '/'

/-- `Set.prototype.add` on an insertion-ordered set. -/
def setAdd (l : List Str) (x : Str) : List Str :=
  if l.contains x then l else l ++ [x]

/-- The running state of the line loop of `validateProfileFiles`
(server.js:520-550). -/
structure ValLoop where
  expectedCols : Option Nat
  firstError : Option Str
  parsedRows : Nat
  referencedTags : List Str
deriving Repr, DecidableEq

def lineErrMsg (idx : Nat) (msg : Str) : Str :=
  "Line ".data ++ natToStr (idx + 1) ++ ": ".data ++ msg

def colCountMsg (idx : Nat) (n : Nat) : Str :=
  "Line ".data ++ natToStr (idx + 1) ++ ": trunk.tsv has invalid column count (".data ++
    natToStr n ++ ")".data

def colMismatchMsg (idx : Nat) (expected found : Nat) : Str :=
  "Line ".data ++ natToStr (idx + 1) ++ ": expected ".data ++ natToStr expected ++
    " columns but found ".data ++ natToStr found

/-- The line loop of `validateProfileFiles` (server.js:525-550): skip
blank/comment lines, fail fast on a parse error or column-count
mismatch (the error carries the 1-based line number and the loop stops),
count parsed rows (the header line included) and collect referenced tag
files. -/
def valLoop (lines : List Str) (idx : Nat) (st : ValLoop) : ValLoop :=
  match lines with
  | [] => st
  | l :: rest =>
    let raw := jsTrim l
    if raw.isEmpty || startsWithChar raw '#' then valLoop rest (idx + 1) st
    else
      match parseQuotedTsvLine raw with
      | .fail msg => { st with firstError := some (lineErrMsg idx msg) }
      | .ok fields =>
        match st.expectedCols with
        | none =>
          if fields.length < 2 then
            { st with expectedCols := some fields.length,
                      firstError := some (colCountMsg idx fields.length) }
          else
            valLoop rest (idx + 1)
              { st with expectedCols := some fields.length,
                        parsedRows := st.parsedRows + 1,
                        referencedTags := (findTagFilesInFields fields).foldl setAdd st.referencedTags }
        | some expected =>
          if fields.length ≠ expected then
            { st with firstError := some (colMismatchMsg idx expected fields.length) }
          else
            valLoop rest (idx + 1)
              { st with parsedRows := st.parsedRows + 1,
                        referencedTags := (findTagFilesInFields fields).foldl setAdd st.referencedTags }

/-- The referenced-tag-file loop of `validateProfileFiles`
(server.js:560-585): absolute references resolve outside the profiles
directory (modelled as never existing); a missing relative reference is
auto-created under `createMissingTags`, otherwise it is the first error,
with a case-insensitive-collision refinement. -/
def tagLoop (createMissing : Bool) (s : Store) (created : List Str) :
    List Str → Option Str × List Str × Store
  | [] => (none, created, s)
  | tag :: rest =>
    if (if isAbsolutePath tag then false else fsExists s tag) then
      tagLoop createMissing s created rest
    else if !isAbsolutePath tag && createMissing then
      match ensureNamedTagsFile tag s with
      | .ok (_, s2) => tagLoop createMissing s2 (created ++ [tag]) rest
      | .error msg =>
        (some ("Unable to create missing tag file \x27".data ++ tag ++ "\x27: ".data ++ msg),
          created, s)
    else
      match (if isAbsolutePath tag then none else findCaseInsensitiveProfileFile tag s) with
      | some variant =>
        (some ("Referenced tag file case mismatch: \x27".data ++ tag ++
          "\x27 not found, but \x27".data ++ variant ++ "\x27 exists".data), created, s)
      | none =>
        (some (if createMissing then "Referenced tag file is missing: ".data ++ tag
          else "Referenced tag file is missing: ".data ++ tag ++
            " (re-run with ?createMissingTags=1 to create an empty file)".data), created, s)

/-- The `details` record of `validateProfileFiles` (server.js:591-598). -/
structure ValDetails where
  profile : Str
  trunkFile : Str
  parsedRows : Nat
  expectedColumns : Option Nat
  referencedTagFiles : List Str
  createdTagFiles : List Str
deriving Repr, DecidableEq

/-- The result of `validateProfileFiles`; the missing-trunk early return
(server.js:508-514) carries no `details`. -/
structure ValResult where
  ok : Bool
  firstError : Option Str
  details : Option ValDetails
deriving Repr, DecidableEq

/-- `validateProfileFiles` (server.js:500-600), over the store. -/
def validateProfileFiles (profile : Str) (createMissingTags : Bool) (s : Store) :
    ValResult × Store :=
  let s1 := migrateLegacyTrunkFile profile s
  let s2 := ensureTagsFile profile s1
  match fsGet s2.textFiles (trunkFileName profile) with
  | none =>
    ({ ok := false,
       firstError := some ("Missing required trunk file: ".data ++ trunkFileName profile),
       details := none }, s2)
  | some content =>
    let lines := (content.filter (fun c => c != '\r')).splitOn '\n'
    let st := valLoop lines 0 ⟨none, none, 0, []⟩
    let fe2 := if st.firstError = none ∧ st.parsedRows = 0
      then some "No usable rows found in trunk.tsv".data else st.firstError
    let tags := if fe2 = none ∧ st.referencedTags = []
      then [tagsFileName profile] else st.referencedTags
    let step := if fe2 = none then tagLoop createMissingTags s2 [] tags else (fe2, [], s2)
    ({ ok := step.1.isNone,
       firstError := step.1,
       details := some { profile := profile, trunkFile := trunkFileName profile,
                         parsedRows := st.parsedRows, expectedColumns := st.expectedCols,
                         referencedTagFiles := tags, createdTagFiles := step.2.1 } },
      step.2.2)

theorem fsSet_fsSet {α : Type} (files : List (Str × α)) (k : Str) (v : α) :
    fsSet (fsSet files k v) k v = fsSet files k v := by
  induction files with
  | nil => simp [fsSet]
  | cons p rest ih =>
    obtain ⟨k', v'⟩ := p
    by_cases h : k' = k
    · subst h
      rw [fsSet, if_pos rfl, fsSet, if_pos rfl]
    · rw [fsSet, if_neg h, fsSet, if_neg h, ih]

theorem fsGet_fsSet {α : Type} (files : List (Str × α)) (k : Str) (v : α) :
    fsGet (fsSet files k v) k = some v := by
  have hbk : (k == k) = true := by simp
  induction files with
  | nil =>
    show fsGet [(k, v)] k = some v
    simp only [fsGet, List.find?, hbk]
    rfl
  | cons p rest ih =>
    obtain ⟨k', v'⟩ := p
    by_cases h : k' = k
    · subst h
      rw [fsSet, if_pos rfl]
      simp only [fsGet, List.find?, hbk]
      rfl
    · rw [fsSet, if_neg h]
      have hb : (k' == k) = false := by simp [h]
      simp only [fsGet, List.find?, hb] at ih ⊢
      exact ih

theorem fsGet_fsSet_ne {α : Type} (files : List (Str × α)) (k k2 : Str) (v : α)
    (h : k ≠ k2) :
    fsGet (fsSet files k v) k2 = fsGet files k2 := by
  have hb : (k == k2) = false := by simp [h]
  induction files with
  | nil =>
    show fsGet [(k, v)] k2 = fsGet [] k2
    simp only [fsGet, List.find?, hb]
  | cons p rest ih =>
    obtain ⟨k', v'⟩ := p
    by_cases hk : k' = k
    · subst hk
      rw [fsSet, if_pos rfl]
      have hb2 : (k' == k2) = false := by
        simp only [beq_eq_false_iff_ne]
        exact fun hc => h (hc ▸ rfl)
      simp only [fsGet, List.find?, hb, hb2]
    · rw [fsSet, if_neg hk]
      by_cases h2 : k' = k2
      · subst h2
        have hb2 : (k' == k') = true := by simp
        simp only [fsGet, List.find?, hb2]
      · have hb2 : (k' == k2) = false := by simp [h2]
        simp only [fsGet, List.find?, hb2] at ih ⊢
        exact ih

theorem fsSet_mem_keys {α : Type} (files : List (Str × α)) (k : Str) (v : α) :
    k ∈ (fsSet files k v).map Prod.fst := by
  induction files with
  | nil =>
    show k ∈ [(k, v)].map Prod.fst
    simp
  | cons p rest ih =>
    obtain ⟨k', v'⟩ := p
    by_cases h : k' = k
    · subst h
      rw [fsSet, if_pos rfl, List.map_cons]
      exact List.mem_cons_self _ _
    · rw [fsSet, if_neg h, List.map_cons]
      exact List.mem_cons_of_mem _ ih

/-- C9: the trunk and tags writers are idempotent: writing twice with
identical inputs leaves the same store as writing once, and the written
file content is a pure function of the inputs (the same bytes on every
call, whatever the prior store held). -/
theorem c9_writers_idempotent :
    (∀ (profile : Str) (sites : List Site) (profileDoc : ProfDoc) (s : Store),
      writeTrunkTsv profile sites profileDoc (writeTrunkTsv profile sites profileDoc s) =
        writeTrunkTsv profile sites profileDoc s ∧
      fsGet (writeTrunkTsv profile sites profileDoc s).textFiles (trunkFileName profile) =
        some (writeTrunkTsvContent profile sites profileDoc)) ∧
    (∀ (profile : Str) (entries : List Entry) (s : Store),
      writeTagsTsv profile entries (writeTagsTsv profile entries s) =
        writeTagsTsv profile entries s ∧
      fsGet (writeTagsTsv profile entries s).textFiles (tagsFileName profile) =
        some (writeTagsTsvContent entries)) := by
  constructor
  · intro profile sites profileDoc s
    constructor
    · unfold writeTrunkTsv
      simp [fsSet_fsSet]
    · unfold writeTrunkTsv
      simp [fsGet_fsSet]
  · intro profile entries s
    constructor
    · unfold writeTagsTsv
      simp [fsSet_fsSet]
    · unfold writeTagsTsv
      simp [fsGet_fsSet]

theorem tagLoop_false_store (tags : List Str) (s : Store) (created : List Str) :
    (tagLoop false s created tags).2.2 = s := by
  induction tags generalizing created with
  | nil => rfl
  | cons tag rest ih =>
    by_cases hex : (if isAbsolutePath tag then false else fsExists s tag) = true
    · rw [tagLoop, if_pos hex]
      exact ih created
    · rw [tagLoop, if_neg hex, if_neg (by simp)]
      split
      · rfl
      · rfl

/-- C7 (counterexample): with `createMissingTags` false and the
profile's tags file absent, `validateProfileFiles` still creates the
tags file — a filesystem write the claim rules out. -/
theorem c7_counterexample :
    fsExists (Store.mk [("p.trunk.tsv".data, "\"a\"\t\"b\"\n".data)] [] [] [] [])
      "p.tags.tsv".data = false ∧
    fsExists (validateProfileFiles "p".data false
        (Store.mk [("p.trunk.tsv".data, "\"a\"\t\"b\"\n".data)] [] [] [] [])).2
      "p.tags.tsv".data = true := by
  exact ⟨by decide, by decide⟩

/-- C7 (amended): with `createMissingTags` false the only writes
`validateProfileFiles` performs are the legacy-trunk migration copy and
the regeneration of the profile's own missing tags file — its final
store is exactly `ensureTagsFile` after `migrateLegacyTrunkFile`; in
particular, when the trunk file and the tags file both exist the store
is left untouched. -/
theorem c7_validate_writes_only_migration_and_tags :
    (∀ (profile : Str) (s : Store),
      (validateProfileFiles profile false s).2 =
        ensureTagsFile profile (migrateLegacyTrunkFile profile s)) ∧
    (∀ (profile : Str) (s : Store),
      fsExists s (trunkFileName profile) = true →
      fsExists s (tagsFileName profile) = true →
      (validateProfileFiles profile false s).2 = s) := by
  have hmain : ∀ (profile : Str) (s : Store),
      (validateProfileFiles profile false s).2 =
        ensureTagsFile profile (migrateLegacyTrunkFile profile s) := by
    intro profile s
    unfold validateProfileFiles
    simp only []
    rcases hget : fsGet (ensureTagsFile profile (migrateLegacyTrunkFile profile s)).textFiles
        (trunkFileName profile) with _ | content
    · simp [hget]
    · simp only [hget]
      repeat' split
      all_goals try exact tagLoop_false_store _ _ _
      all_goals rfl
  refine ⟨hmain, ?_⟩
  intro profile s htrunk htags
  rw [hmain]
  have h1 : migrateLegacyTrunkFile profile s = s := by
    unfold migrateLegacyTrunkFile
    rw [if_pos htrunk]
  rw [h1]
  unfold ensureTagsFile
  rw [if_pos htags]

/-- Witness for C7 (amended) at a concrete store holding both files. -/
theorem c7_validate_writes_only_migration_and_tags_witness :
    fsExists (Store.mk [("p.trunk.tsv".data, "\"a\"\t\"b\"\n".data),
        ("p.tags.tsv".data, "\"tgid\"\t\"tag\"\t\"mode\"\n".data)] [] [] [] [])
      (trunkFileName "p".data) = true ∧
    fsExists (Store.mk [("p.trunk.tsv".data, "\"a\"\t\"b\"\n".data),
        ("p.tags.tsv".data, "\"tgid\"\t\"tag\"\t\"mode\"\n".data)] [] [] [] [])
      (tagsFileName "p".data) = true ∧
    (validateProfileFiles "p".data false
        (Store.mk [("p.trunk.tsv".data, "\"a\"\t\"b\"\n".data),
          ("p.tags.tsv".data, "\"tgid\"\t\"tag\"\t\"mode\"\n".data)] [] [] [] [])).2 =
      Store.mk [("p.trunk.tsv".data, "\"a\"\t\"b\"\n".data),
        ("p.tags.tsv".data, "\"tgid\"\t\"tag\"\t\"mode\"\n".data)] [] [] [] [] :=
  ⟨by decide, by decide,
    c7_validate_writes_only_migration_and_tags.2 "p".data
      (Store.mk [("p.trunk.tsv".data, "\"a\"\t\"b\"\n".data),
        ("p.tags.tsv".data, "\"tgid\"\t\"tag\"\t\"mode\"\n".data)] [] [] [] [])
      (by decide) (by decide)⟩

/-- C5 (counterexample): a trunk line whose final field is not closed by
a double quote is NOT a hard parse error: `parseQuotedTsvLine` accepts
it (the field runs to end of line) and the validator reports ok on a
file containing such a line. -/
theorem c5_counterexample :
    parseQuotedTsvLine "\"x\"\t\"yz".data = .ok [['x'], ['y', 'z']] ∧
    (validateProfileFiles "p".data false
        (Store.mk [("p.trunk.tsv".data, "\"a\"\t\"b\"\n\"x\"\t\"yz\n".data)] [] [] [] [])).1.ok
      = true ∧
    (validateProfileFiles "p".data false
        (Store.mk [("p.trunk.tsv".data, "\"a\"\t\"b\"\n\"x\"\t\"yz\n".data)] [] [] [] [])).1.firstError
      = none := by
  exact ⟨by decide, by decide, by decide⟩

/-- C5 (amended): a line that does not begin with a double quote, and a
closed field not followed by exactly one tab, are hard parse errors;
the validator loop that meets such a line stops there and reports the
error with the 1-based line number (its result does not depend on the
remaining lines).  A final field missing its closing quote is tolerated:
the field extends to the end of the line. -/
theorem c5_parse_errors_fail_fast :
    (∀ line : Str, line ≠ [] → line.head? ≠ some '"' →
      parseQuotedTsvLine line = .fail "field must start with double quote".data) ∧
    (∀ (f : Str) (c : Char) (rest : Str), c ≠ '\t' → c ≠ '"' →
      parseQuotedTsvLine (quoteTsv f ++ c :: rest) =
        .fail "fields must be tab-separated quoted values".data) ∧
    (∀ (bad : Str) (rest : List Str) (idx : Nat) (st : ValLoop) (msg : Str),
      (jsTrim bad).isEmpty = false → startsWithChar (jsTrim bad) '#' = false →
      parseQuotedTsvLine (jsTrim bad) = .fail msg →
      valLoop (bad :: rest) idx st = { st with firstError := some (lineErrMsg idx msg) }) := by
  refine ⟨?_, ?_, ?_⟩
  · intro line hne hq
    cases line with
    | nil => exact absurd rfl hne
    | cons c r =>
      have hc : c ≠ '"' := by
        intro hc
        exact hq (by simp [hc])
      simp [parseQuotedTsvLine, tsvExpectField, hc]
  · intro f c rest htab hq
    have hshape : quoteTsv f ++ c :: rest = '"' :: (escQuotes f ++ '"' :: c :: rest) := by
      simp [quoteTsv]
    rw [parseQuotedTsvLine, hshape]
    simp only [tsvExpectField, if_pos rfl]
    rw [tsvInField_escQuotes f [] (c :: rest) (by simp [hq])]
    simp [tsvAfterField, htab]
  · intro bad rest idx st msg hne hhash hparse
    rw [valLoop]
    rw [if_neg (by simp [hne, hhash])]
    rw [hparse]

/-- Witness for C5 (amended): each conjunct at a concrete input.  The
loop instance shows the error carries the 1-based line number (line 5
for 0-based index 4) and the trailing lines are never parsed. -/
theorem c5_parse_errors_fail_fast_witness :
    ("x".data ≠ ([] : Str) ∧ ("x".data : Str).head? ≠ some '"' ∧
      parseQuotedTsvLine "x".data = .fail "field must start with double quote".data) ∧
    ((';' : Char) ≠ '\t' ∧ (';' : Char) ≠ '"' ∧
      parseQuotedTsvLine (quoteTsv "a".data ++ ';' :: []) =
        .fail "fields must be tab-separated quoted values".data) ∧
    ((jsTrim "x".data).isEmpty = false ∧ startsWithChar (jsTrim "x".data) '#' = false ∧
      parseQuotedTsvLine (jsTrim "x".data) = .fail "field must start with double quote".data ∧
      valLoop ["x".data, "\"a\"\t\"b\"".data] 4 ⟨none, none, 0, []⟩ =
        ⟨none, some "Line 5: field must start with double quote".data, 0, []⟩) :=
  ⟨⟨by decide, by decide,
      c5_parse_errors_fail_fast.1 "x".data (by decide) (by decide)⟩,
   ⟨by decide, by decide,
      c5_parse_errors_fail_fast.2.1 "a".data ';' [] (by decide) (by decide)⟩,
   ⟨by decide, by decide, by decide,
      c5_parse_errors_fail_fast.2.2 "x".data ["\"a\"\t\"b\"".data] 4 ⟨none, none, 0, []⟩
        "field must start with double quote".data (by decide) (by decide) (by decide)⟩⟩

theorem joinSep_eq_intercalate (sep : Str) (ls : List Str) :
    joinSep sep ls = List.intercalate sep ls := by
  induction ls with
  | nil => simp [joinSep, List.intercalate]
  | cons x rest ih =>
    cases rest with
    | nil => simp [joinSep, List.intercalate]
    | cons y ys =>
      rw [joinSep, ih]
      simp [List.intercalate]

theorem intercalate_append_last (sep : Str) (ls : List Str) (x : Str) (h : ls ≠ []) :
    List.intercalate sep (ls ++ [x]) = List.intercalate sep ls ++ sep ++ x := by
  induction ls with
  | nil => exact absurd rfl h
  | cons a rest ih =>
    cases rest with
    | nil => simp [List.intercalate]
    | cons b bs =>
      have h2 := ih (by simp)
      rw [List.cons_append]
      have e1 : List.intercalate sep (a :: (b :: bs ++ [x])) =
          a ++ sep ++ List.intercalate sep (b :: bs ++ [x]) := by
        simp [List.intercalate]
      have e2 : List.intercalate sep (a :: b :: bs) =
          a ++ sep ++ List.intercalate sep (b :: bs) := by
        simp [List.intercalate]
      rw [e1, h2, e2]
      simp [List.append_assoc]

theorem mem_joinSep {c : Char} {sep : Str} {ls : List Str}
    (h : c ∈ joinSep sep ls) : c ∈ sep ∨ ∃ l ∈ ls, c ∈ l := by
  induction ls with
  | nil => simp [joinSep] at h
  | cons x rest ih =>
    cases rest with
    | nil =>
      rw [joinSep] at h
      exact Or.inr ⟨x, by simp, h⟩
    | cons y ys =>
      rw [joinSep] at h
      rcases List.mem_append.1 h with h1 | h1
      · rcases List.mem_append.1 h1 with h2 | h2
        · exact Or.inr ⟨x, by simp, h2⟩
        · exact Or.inl h2
      · rcases ih h1 with h2 | ⟨l, hl, hc⟩
        · exact Or.inl h2
        · exact Or.inr ⟨l, List.mem_cons_of_mem _ hl, hc⟩

theorem mem_escQuotes {c : Char} {f : Str} (h : c ∈ escQuotes f) : c ∈ f := by
  induction f with
  | nil => simp [escQuotes] at h
  | cons a rest ih =>
    by_cases ha : a = '"'
    · subst ha
      rw [escQuotes, if_pos rfl] at h
      rcases List.mem_cons.1 h with rfl | h1
      · simp
      · rcases List.mem_cons.1 h1 with rfl | h2
        · simp
        · exact List.mem_cons_of_mem _ (ih h2)
    · rw [escQuotes, if_neg ha] at h
      rcases List.mem_cons.1 h with rfl | h1
      · simp
      · exact List.mem_cons_of_mem _ (ih h1)

theorem mem_quoteTsv {c : Char} {f : Str} (h : c ∈ quoteTsv f) : c = '"' ∨ c ∈ f := by
  rw [quoteTsv] at h
  rcases List.mem_cons.1 h with rfl | h1
  · exact Or.inl rfl
  · rcases List.mem_append.1 h1 with h2 | h2
    · exact Or.inr (mem_escQuotes h2)
    · simp at h2
      exact Or.inl h2

theorem mem_renderTsvRow {c : Char} {fields : List Str}
    (h : c ∈ renderTsvRow fields) : c = '"' ∨ c = '\t' ∨ ∃ f ∈ fields, c ∈ f := by
  rw [renderTsvRow] at h
  rcases mem_joinSep h with h1 | ⟨l, hl, hc⟩
  · simp at h1
    exact Or.inr (Or.inl h1)
  · obtain ⟨f, hf, rfl⟩ := List.mem_map.1 hl
    rcases mem_quoteTsv hc with h2 | h2
    · exact Or.inl h2
    · exact Or.inr (Or.inr ⟨f, hf, h2⟩)

theorem renderTsvRow_shape (f : Str) (fs : List Str) :
    ∃ mid : Str, renderTsvRow (f :: fs) = '"' :: mid ++ ['"'] := by
  induction fs generalizing f with
  | nil => exact ⟨escQuotes f, rfl⟩
  | cons g gs ih =>
    obtain ⟨mid, hmid⟩ := ih g
    refine ⟨escQuotes f ++ ['"'] ++ '\t' :: '"' :: mid, ?_⟩
    have h0 : renderTsvRow (f :: g :: gs) = quoteTsv f ++ ['\t'] ++ renderTsvRow (g :: gs) := by
      rw [renderTsvRow, List.map_cons, List.map_cons, joinSep]
      rfl
    rw [h0, hmid, quoteTsv]
    simp [List.append_assoc]

theorem jsTrim_of_ends (a : Char) (mid : Str) (b : Char)
    (ha : isWsChar a = false) (hb : isWsChar b = false) :
    jsTrim (a :: mid ++ [b]) = a :: mid ++ [b] := by
  have h1 : List.dropWhile isWsChar (a :: mid ++ [b]) = a :: mid ++ [b] := by
    rw [List.cons_append, List.dropWhile_cons, ha]
    simp
  have hrev : (a :: mid ++ [b]).reverse = b :: (mid.reverse ++ [a]) := by simp
  have h2 : List.dropWhile isWsChar ((a :: mid ++ [b]).reverse) = (a :: mid ++ [b]).reverse := by
    rw [hrev, List.dropWhile_cons, hb]
    simp
  rw [jsTrim, h1, h2, List.reverse_reverse]

theorem jsTrim_renderTsvRow (f : Str) (fs : List Str) :
    jsTrim (renderTsvRow (f :: fs)) = renderTsvRow (f :: fs) := by
  obtain ⟨mid, hmid⟩ := renderTsvRow_shape f fs
  rw [hmid]
  exact jsTrim_of_ends '"' mid '"' (by decide) (by decide)

theorem safeChar_not_ws {c : Char} (h : isSafeNameChar c = true) : isWsChar c = false := by
  cases hw : isWsChar c
  · rfl
  · exfalso
    simp only [isWsChar, Bool.or_eq_true, beq_iff_eq] at hw
    rcases hw with ((rfl | rfl) | rfl) | rfl <;> exact absurd h (by decide)

theorem safeChar_ne_slash {c : Char} (h : isSafeNameChar c = true) : (c == '/') = false := by
  cases he : (c == '/')
  · rfl
  · exfalso
    have hc : c = '/' := by simpa using he
    subst hc
    exact absurd h (by decide)

theorem safeName_head {p : Str} (h : isSafeProfileName p = true) :
    ∃ c p2, p = c :: p2 ∧ isSafeNameChar c = true := by
  cases p with
  | nil => exact absurd h (by decide)
  | cons c p2 =>
    refine ⟨c, p2, rfl, ?_⟩
    simp only [isSafeProfileName, Bool.and_eq_true, List.all_eq_true] at h
    exact h.2 c (by simp)

theorem safeName_all {p : Str} (h : isSafeProfileName p = true) :
    ∀ ch ∈ p, isSafeNameChar ch = true := by
  simp only [isSafeProfileName, Bool.and_eq_true, List.all_eq_true] at h
  exact h.2

theorem tagsFileName_shape (c : Char) (p2 : Str) :
    tagsFileName (c :: p2) = c :: (p2 ++ ".tags.ts".data) ++ ['v'] := by
  simp [tagsFileName]

theorem jsTrim_tagsFileName {p : Str} (h : isSafeProfileName p = true) :
    jsTrim (tagsFileName p) = tagsFileName p := by
  obtain ⟨c, p2, rfl, hc⟩ := safeName_head h
  rw [tagsFileName_shape]
  exact jsTrim_of_ends c _ 'v' (safeChar_not_ws hc) (by decide)

theorem tagsFileName_ends (p : Str) :
    strEndsWith (jsLower (tagsFileName p)) ".tags.tsv".data = true := by
  simp only [strEndsWith, decide_eq_true_eq]
  rw [tagsFileName, jsLower, List.map_append]
  have hl : ".tags.tsv".data.map Char.toLower = ".tags.tsv".data := by decide
  rw [hl]
  exact List.suffix_append _ _

theorem tagsFileName_not_empty (p : Str) : (tagsFileName p).isEmpty = false := by
  rw [tagsFileName]
  cases p <;> simp [List.isEmpty]

theorem isAbsolutePath_tagsFileName {p : Str} (h : isSafeProfileName p = true) :
    isAbsolutePath (tagsFileName p) = false := by
  obtain ⟨c, p2, rfl, hc⟩ := safeName_head h
  show startsWithChar ((c :: p2) ++ ".tags.tsv".data) '/' = false
  rw [List.cons_append]
  show (c == '/') = false
  exact safeChar_ne_slash hc

theorem tagsFileName_ne_trunk (p : Str) : tagsFileName p ≠ trunkFileName p := by
  intro h
  rw [tagsFileName, trunkFileName] at h
  exact absurd (List.append_cancel_left h) (by decide)

theorem tagsFileName_no_nl {p : Str} (h : isSafeProfileName p = true) :
    '\n' ∉ tagsFileName p ∧ '\r' ∉ tagsFileName p := by
  have hall := safeName_all h
  constructor
  · intro hm
    rcases List.mem_append.1 hm with h1 | h1
    · exact absurd (hall '\n' h1) (by decide)
    · exact absurd h1 (by decide)
  · intro hm
    rcases List.mem_append.1 hm with h1 | h1
    · exact absurd (hall '\r' h1) (by decide)
    · exact absurd h1 (by decide)

theorem fsExists_textSet_self (s : Store) (k : Str) (v : Str) :
    fsExists { s with textFiles := fsSet s.textFiles k v } k = true := by
  have hmem : k ∈ profilesDirNames { s with textFiles := fsSet s.textFiles k v } := by
    rw [profilesDirNames]
    exact List.mem_append.2 (Or.inl (List.mem_append.2 (Or.inl (List.mem_append.2
      (Or.inl (fsSet_mem_keys _ _ _))))))
  exact List.elem_iff.2 hmem

theorem ensureTagsFile_exists (p : Str) (s : Store) :
    fsExists (ensureTagsFile p s) (tagsFileName p) = true := by
  rw [ensureTagsFile]
  split
  · rename_i hex
    exact hex
  · rw [writeTagsTsv]
    exact fsExists_textSet_self _ _ _

theorem ensureTagsFile_textGet_ne (p : Str) (s : Store) (k : Str)
    (hk : tagsFileName p ≠ k) :
    fsGet (ensureTagsFile p s).textFiles k = fsGet s.textFiles k := by
  rw [ensureTagsFile]
  split
  · rfl
  · rw [writeTagsTsv]
    exact fsGet_fsSet_ne _ _ _ _ hk

theorem migrateLegacyTrunkFile_of_exists (p : Str) (s : Store)
    (h : fsExists s (trunkFileName p) = true) :
    migrateLegacyTrunkFile p s = s := by
  rw [migrateLegacyTrunkFile, if_pos h]

theorem setAdd_nil (x : Str) : setAdd [] x = [x] := rfl

theorem setAdd_self (x : Str) : setAdd [x] x = [x] := by
  simp [setAdd]

theorem valLoop_cons_skip (l : Str) (rest : List Str) (idx : Nat) (st : ValLoop)
    (h : ((jsTrim l).isEmpty || startsWithChar (jsTrim l) '#') = true) :
    valLoop (l :: rest) idx st = valLoop rest (idx + 1) st := by
  rw [valLoop, if_pos h]

theorem valLoop_cons_row (l : Str) (rest : List Str) (idx : Nat) (st : ValLoop)
    (fields : List Str) (expected : Nat)
    (hskip : ((jsTrim l).isEmpty || startsWithChar (jsTrim l) '#') = false)
    (hp : parseQuotedTsvLine (jsTrim l) = .ok fields)
    (hec : st.expectedCols = some expected)
    (hlen : fields.length = expected) :
    valLoop (l :: rest) idx st = valLoop rest (idx + 1)
      { st with parsedRows := st.parsedRows + 1,
                referencedTags := (findTagFilesInFields fields).foldl setAdd st.referencedTags } := by
  rw [valLoop, if_neg (by simp [hskip]), hp, hec]
  simp only []
  rw [if_neg (by omega)]

theorem valLoop_cons_first (l : Str) (rest : List Str) (idx : Nat) (st : ValLoop)
    (fields : List Str)
    (hskip : ((jsTrim l).isEmpty || startsWithChar (jsTrim l) '#') = false)
    (hp : parseQuotedTsvLine (jsTrim l) = .ok fields)
    (hec : st.expectedCols = none)
    (hlen : ¬ fields.length < 2) :
    valLoop (l :: rest) idx st = valLoop rest (idx + 1)
      { st with expectedCols := some fields.length, parsedRows := st.parsedRows + 1,
                referencedTags := (findTagFilesInFields fields).foldl setAdd st.referencedTags } := by
  rw [valLoop, if_neg (by simp [hskip]), hp, hec]
  simp only []
  rw [if_neg hlen]

/-- A line is counted by the validator when it is neither blank nor a
comment after trimming. -/
def isCountedLine (r : Str) : Bool :=
  !((jsTrim r).isEmpty || startsWithChar (jsTrim r) '#')

theorem valLoop_rows (tagsName : Str) (rows : List Str) :
    ∀ (idx : Nat) (st : ValLoop),
      st.firstError = none →
      st.expectedCols = some 9 →
      (st.referencedTags = [] ∨ st.referencedTags = [tagsName]) →
      (∀ r ∈ rows, ((jsTrim r).isEmpty || startsWithChar (jsTrim r) '#') = true ∨
        (((jsTrim r).isEmpty || startsWithChar (jsTrim r) '#') = false ∧
          ∃ fields, parseQuotedTsvLine (jsTrim r) = .ok fields ∧ fields.length = 9 ∧
            findTagFilesInFields fields = [tagsName])) →
      valLoop rows idx st =
        { expectedCols := some 9, firstError := none,
          parsedRows := st.parsedRows + rows.countP isCountedLine,
          referencedTags := if rows.countP isCountedLine = 0
            then st.referencedTags else [tagsName] } := by
  induction rows with
  | nil =>
    intro idx st hfe hec _ _
    obtain ⟨ec, fe, pr, tg⟩ := st
    simp only at hfe hec
    subst hfe hec
    simp [valLoop]
  | cons r rest ih =>
    intro idx st hfe hec htags hrows
    rcases hrows r (by simp) with hskip | ⟨hskip, fields, hp, hlen, htf⟩
    · rw [valLoop_cons_skip r rest idx st hskip]
      rw [ih (idx + 1) st hfe hec htags (fun r2 hr2 => hrows r2 (List.mem_cons_of_mem _ hr2))]
      have hcount : (r :: rest).countP isCountedLine = rest.countP isCountedLine := by
        rw [List.countP_cons]
        simp [isCountedLine, hskip]
      rw [hcount]
    · rw [valLoop_cons_row r rest idx st fields 9 hskip hp hec hlen]
      have htags2 : (findTagFilesInFields fields).foldl setAdd st.referencedTags = [tagsName] := by
        rw [htf]
        rcases htags with h0 | h0 <;> rw [h0]
        · rw [List.foldl_cons, List.foldl_nil, setAdd_nil]
        · rw [List.foldl_cons, List.foldl_nil, setAdd_self]
      rw [ih (idx + 1)
        { st with parsedRows := st.parsedRows + 1,
                  referencedTags := (findTagFilesInFields fields).foldl setAdd st.referencedTags }
        hfe hec (Or.inr htags2)
        (fun r2 hr2 => hrows r2 (List.mem_cons_of_mem _ hr2))]
      have hcount : (r :: rest).countP isCountedLine = rest.countP isCountedLine + 1 := by
        rw [List.countP_cons]
        simp [isCountedLine, hskip]
      rw [hcount, htags2]
      have hpr : st.parsedRows + 1 + rest.countP isCountedLine =
          st.parsedRows + (rest.countP isCountedLine + 1) := by omega
      rw [hpr]
      have hne : ¬ (rest.countP isCountedLine + 1 = 0) := by omega
      rw [if_neg hne]
      split
      · rfl
      · rfl

/-- Well-formedness of one non-tags_file trunk field: printable on one
line and not itself naming a tags file. -/
def trunkFieldOk (f : Str) : Prop :=
  '\n' ∉ f ∧ '\r' ∉ f ∧ strEndsWith (jsLower f) ".tags.tsv".data = false

instance (f : Str) : Decidable (trunkFieldOk f) := by
  unfold trunkFieldOk
  infer_instance

theorem trunkRowFields_decomp (profile : Str) (meta : ProfDoc) (site : Site) :
    trunkRowFields profile meta site =
      (trunkRowFields profile meta site).take 8 ++ [tagsFileName profile] := rfl

theorem renderTsvRow_no_char {c : Char} {fields : List Str}
    (hc1 : c ≠ '"') (hc2 : c ≠ '\t') (h : ∀ f ∈ fields, c ∉ f) :
    c ∉ renderTsvRow fields := by
  intro hm
  rcases mem_renderTsvRow hm with h1 | h1 | ⟨f, hf, hcf⟩
  · exact hc1 h1
  · exact hc2 h1
  · exact h f hf hcf

theorem findTagFiles_trunkRow (profile : Str) (meta : ProfDoc) (site : Site)
    (hsafe : isSafeProfileName profile = true)
    (hf : ∀ f ∈ (trunkRowFields profile meta site).take 8,
      strEndsWith (jsLower f) ".tags.tsv".data = false) :
    findTagFilesInFields (trunkRowFields profile meta site) = [tagsFileName profile] := by
  have hdecomp := trunkRowFields_decomp profile meta site
  rw [findTagFilesInFields]
  conv in List.filter _ (trunkRowFields profile meta site) => rw [hdecomp]
  rw [List.filter_append]
  have h1 : ((trunkRowFields profile meta site).take 8).filter
      (fun f => strEndsWith (jsLower f) ".tags.tsv".data) = [] := by
    rw [List.filter_eq_nil_iff]
    intro a ha
    simp [hf a ha]
  have h2 : ([tagsFileName profile] : List Str).filter
      (fun f => strEndsWith (jsLower f) ".tags.tsv".data) = [tagsFileName profile] := by
    have he : strEndsWith (jsLower (tagsFileName profile))
        ['.', 't', 'a', 'g', 's', '.', 't', 's', 'v'] = true := tagsFileName_ends profile
    rw [List.filter_cons]
    simp [he]
  rw [h1, h2, List.nil_append, List.map_cons, List.map_nil, jsTrim_tagsFileName hsafe]
  rw [List.filter_cons]
  simp [tagsFileName_not_empty]

theorem siteRow_facts (profile : Str) (meta : ProfDoc) (site : Site)
    (hsafe : isSafeProfileName profile = true)
    (hfields : ∀ f ∈ (trunkRowFields profile meta site).take 8, trunkFieldOk f) :
    jsTrim (renderTsvRow (trunkRowFields profile meta site)) =
      renderTsvRow (trunkRowFields profile meta site) ∧
    ((renderTsvRow (trunkRowFields profile meta site)).isEmpty ||
      startsWithChar (renderTsvRow (trunkRowFields profile meta site)) '#') = false ∧
    '\n' ∉ renderTsvRow (trunkRowFields profile meta site) ∧
    '\r' ∉ renderTsvRow (trunkRowFields profile meta site) := by
  have hfieldmem : ∀ (c : Char), c ≠ '"' → (c ∉ ".tags.tsv".data ∧ isSafeNameChar c = false) →
      ∀ f ∈ trunkRowFields profile meta site, ('\n' ∉ f ∧ '\r' ∉ f) → True := fun _ _ _ _ _ _ => trivial
  have hnl : ∀ f ∈ trunkRowFields profile meta site, '\n' ∉ f := by
    intro f hfmem
    rw [trunkRowFields_decomp profile meta site] at hfmem
    rcases List.mem_append.1 hfmem with h1 | h1
    · exact (hfields f h1).1
    · rw [List.mem_singleton.1 h1]
      exact (tagsFileName_no_nl hsafe).1
  have hcr : ∀ f ∈ trunkRowFields profile meta site, '\r' ∉ f := by
    intro f hfmem
    rw [trunkRowFields_decomp profile meta site] at hfmem
    rcases List.mem_append.1 hfmem with h1 | h1
    · exact (hfields f h1).2.1
    · rw [List.mem_singleton.1 h1]
      exact (tagsFileName_no_nl hsafe).2
  obtain ⟨mid, hmid⟩ := renderTsvRow_shape
    (strOr (sysGet meta (fun sys => sys.name)) profile)
    [site.name,
     joinSep ",".data site.controlChannels,
     joinSep ",".data site.alternateChannels,
     strOr site.nac (strOr (sysGet meta (fun sys => sys.nac)) []),
     strOr site.sysid (strOr (sysGet meta (fun sys => sys.sysid)) []),
     strOr site.wacn (strOr (sysGet meta (fun sys => sys.wacn)) []),
     strOr site.bandplan (strOr (sysGet meta (fun sys => sys.bandplan)) "P25 Auto".data),
     tagsFileName profile]
  have hmid2 : renderTsvRow (trunkRowFields profile meta site) = '"' :: mid ++ ['"'] := hmid
  refine ⟨?_, ?_, ?_, ?_⟩
  · rw [hmid2]
    exact jsTrim_of_ends '"' mid '"' (by decide) (by decide)
  · rw [hmid2]
    rfl
  · exact renderTsvRow_no_char (by decide) (by decide) hnl
  · exact renderTsvRow_no_char (by decide) (by decide) hcr

theorem content_split (rows : List Str) (hrows : rows ≠ [])
    (hnl : ∀ r ∈ rows, '\n' ∉ r) (hcr : ∀ r ∈ rows, '\r' ∉ r) :
    ((joinSep "\n".data rows ++ "\n".data).filter (fun c => c != '\r')).splitOn '\n' =
      rows ++ [[]] := by
  have hfilter : (joinSep "\n".data rows ++ "\n".data).filter (fun c => c != '\r') =
      joinSep "\n".data rows ++ "\n".data := by
    rw [List.filter_eq_self]
    intro a ha
    rcases List.mem_append.1 ha with h1 | h1
    · rcases mem_joinSep h1 with h2 | ⟨l, hl, hc⟩
      · rw [List.mem_singleton.1 h2]
        decide
      · exact bne_iff_ne.2 (fun hEq => hcr l hl (hEq ▸ hc))
    · rw [List.mem_singleton.1 h1]
      decide
  rw [hfilter]
  have hjoin : joinSep "\n".data rows ++ "\n".data =
      List.intercalate "\n".data (rows ++ [([] : Str)]) := by
    rw [intercalate_append_last "\n".data rows [] hrows, List.append_nil,
      joinSep_eq_intercalate]
  rw [hjoin]
  have hsep : List.intercalate "\n".data (rows ++ [([] : Str)]) =
      List.intercalate ['\n'] (rows ++ [([] : Str)]) := rfl
  rw [hsep]
  refine List.splitOn_intercalate (rows ++ [([] : Str)]) '\n' ?_ ?_
  · intro l hl
    rcases List.mem_append.1 hl with h1 | h1
    · exact hnl l h1
    · rw [List.mem_singleton.1 h1]
      simp
  · simp

theorem valLoop_header (rest : List Str) :
    valLoop (renderTsvRow trunkHeaderFields :: rest) 0 ⟨none, none, 0, []⟩ =
      valLoop rest 1 ⟨some 9, none, 1, []⟩ := by
  rw [valLoop_cons_first (renderTsvRow trunkHeaderFields) rest 0 ⟨none, none, 0, []⟩
    trunkHeaderFields (by decide)
    (by rw [show jsTrim (renderTsvRow trunkHeaderFields) = renderTsvRow trunkHeaderFields
          from by decide]
        exact parse_renderTsvRow trunkHeaderFields)
    rfl (by decide)]
  rfl

/-- C2 (amended): writing a non-empty normalized site list with
`writeTrunkTsv` and validating yields `ok = true`, `expectedColumns = 9`,
`referencedTagFiles = [<profile>.tags.tsv]` and `parsedRows` equal to the
number of sites PLUS ONE, because the header line is itself parsed and
counted as a row. -/
theorem c2_trunk_roundtrip_validate (profile : Str) (sites : List Site) (meta : ProfDoc)
    (s : Store) (createMissing : Bool)
    (hsafe : isSafeProfileName profile = true)
    (hsites : sites ≠ [])
    (hfields : ∀ site ∈ sites, ∀ f ∈ (trunkRowFields profile meta site).take 8,
      trunkFieldOk f) :
    (validateProfileFiles profile createMissing (writeTrunkTsv profile sites meta s)).1 =
      { ok := true, firstError := none,
        details := some { profile := profile, trunkFile := trunkFileName profile,
                          parsedRows := sites.length + 1, expectedColumns := some 9,
                          referencedTagFiles := [tagsFileName profile],
                          createdTagFiles := [] } } := by
  have hex : fsExists (writeTrunkTsv profile sites meta s) (trunkFileName profile) = true := by
    rw [writeTrunkTsv]
    exact fsExists_textSet_self s (trunkFileName profile) (writeTrunkTsvContent profile sites meta)
  have hmig : migrateLegacyTrunkFile profile (writeTrunkTsv profile sites meta s) =
      writeTrunkTsv profile sites meta s :=
    migrateLegacyTrunkFile_of_exists profile (writeTrunkTsv profile sites meta s) hex
  have hget : fsGet (ensureTagsFile profile (writeTrunkTsv profile sites meta s)).textFiles
      (trunkFileName profile) = some (writeTrunkTsvContent profile sites meta) := by
    rw [ensureTagsFile_textGet_ne profile (writeTrunkTsv profile sites meta s)
      (trunkFileName profile) (tagsFileName_ne_trunk profile), writeTrunkTsv]
    exact fsGet_fsSet s.textFiles (trunkFileName profile) (writeTrunkTsvContent profile sites meta)
  have hnl : ∀ r ∈ renderTsvRow trunkHeaderFields ::
      sites.map (fun site => renderTsvRow (trunkRowFields profile meta site)), '\n' ∉ r := by
    intro r hr
    rcases List.mem_cons.1 hr with h1 | h1
    · rw [h1]
      decide
    · obtain ⟨site, hsite, rfl⟩ := List.mem_map.1 h1
      exact (siteRow_facts profile meta site hsafe (hfields site hsite)).2.2.1
  have hcr : ∀ r ∈ renderTsvRow trunkHeaderFields ::
      sites.map (fun site => renderTsvRow (trunkRowFields profile meta site)), '\r' ∉ r := by
    intro r hr
    rcases List.mem_cons.1 hr with h1 | h1
    · rw [h1]
      decide
    · obtain ⟨site, hsite, rfl⟩ := List.mem_map.1 h1
      exact (siteRow_facts profile meta site hsafe (hfields site hsite)).2.2.2
  have hsplit : ((writeTrunkTsvContent profile sites meta).filter
        (fun c => c != '\r')).splitOn '\n' =
      (renderTsvRow trunkHeaderFields ::
        sites.map (fun site => renderTsvRow (trunkRowFields profile meta site))) ++ [[]] := by
    rw [writeTrunkTsvContent]
    exact content_split _ (by simp) hnl hcr
  have hrowcond : ∀ r ∈ (sites.map fun site =>
        renderTsvRow (trunkRowFields profile meta site)) ++ [[]],
      ((jsTrim r).isEmpty || startsWithChar (jsTrim r) '#') = true ∨
      (((jsTrim r).isEmpty || startsWithChar (jsTrim r) '#') = false ∧
        ∃ fields, parseQuotedTsvLine (jsTrim r) = .ok fields ∧ fields.length = 9 ∧
          findTagFilesInFields fields = [tagsFileName profile]) := by
    intro r hr
    rcases List.mem_append.1 hr with h1 | h1
    · obtain ⟨site, hsite, rfl⟩ := List.mem_map.1 h1
      obtain ⟨htrim, hskip, -, -⟩ := siteRow_facts profile meta site hsafe (hfields site hsite)
      right
      rw [htrim]
      refine ⟨hskip, trunkRowFields profile meta site, parse_renderTsvRow _, rfl, ?_⟩
      exact findTagFiles_trunkRow profile meta site hsafe
        (fun f hf2 => (hfields site hsite f hf2).2.2)
    · rw [List.mem_singleton.1 h1]
      left
      decide
  have hcount : ((sites.map fun site =>
      renderTsvRow (trunkRowFields profile meta site)) ++ [[]]).countP isCountedLine =
      sites.length := by
    rw [List.countP_append]
    have h2 : List.countP isCountedLine [([] : Str)] = 0 := by decide
    rw [h2, Nat.add_zero]
    have h3 : ∀ r ∈ sites.map fun site => renderTsvRow (trunkRowFields profile meta site),
        isCountedLine r = true := by
      intro r hr
      obtain ⟨site, hsite, rfl⟩ := List.mem_map.1 hr
      obtain ⟨htrim, hskip, -, -⟩ := siteRow_facts profile meta site hsafe (hfields site hsite)
      rw [isCountedLine, htrim, hskip]
      rfl
    rw [List.countP_eq_length.2 h3, List.length_map]
  have hloop := valLoop_rows (tagsFileName profile)
    ((sites.map fun site => renderTsvRow (trunkRowFields profile meta site)) ++ [[]]) 1
    ⟨some 9, none, 1, []⟩ rfl rfl (Or.inl rfl) hrowcond
  rw [hcount] at hloop
  rw [if_neg (fun h => hsites (List.eq_nil_of_length_eq_zero h))] at hloop
  have hval : valLoop (((renderTsvRow trunkHeaderFields ::
      sites.map fun site => renderTsvRow (trunkRowFields profile meta site))) ++ [[]]) 0
      ⟨none, none, 0, []⟩ =
      ⟨some 9, none, 1 + sites.length, [tagsFileName profile]⟩ := by
    rw [List.cons_append, valLoop_header, hloop]
  have htagloop : tagLoop createMissing
      (ensureTagsFile profile (writeTrunkTsv profile sites meta s)) [] [tagsFileName profile] =
      (none, [], ensureTagsFile profile (writeTrunkTsv profile sites meta s)) := by
    have hcond : (if isAbsolutePath (tagsFileName profile) then false
        else fsExists (ensureTagsFile profile (writeTrunkTsv profile sites meta s))
          (tagsFileName profile)) = true := by
      rw [isAbsolutePath_tagsFileName hsafe, if_neg (by decide)]
      exact ensureTagsFile_exists profile (writeTrunkTsv profile sites meta s)
    rw [tagLoop, if_pos hcond, tagLoop]
  rw [validateProfileFiles, hmig, hget]
  simp only []
  rw [hsplit, hval]
  have hlen : ¬ (1 + sites.length = 0) := by omega
  simp [hlen, htagloop, Nat.add_comm]

/-- C2 counterexample: for one site, the validator reports
`parsedRows = 2`, not `1`, because the header line written by
`writeTrunkTsv` is itself parsed and counted (server.js:538-556 count
every non-blank non-comment line, including the first). -/
theorem c2_counterexample :
    (Option.map (fun d => d.parsedRows)
      (validateProfileFiles "p".data false
        (writeTrunkTsv "p".data
          [⟨"Site 1".data, none, none, none, ["851.0125".data], [], none⟩]
          ⟨none, none, none, none, none, none, none⟩
          (Store.mk [] [] [] [] []))).1.details) = some 2 ∧
    ([(⟨"Site 1".data, none, none, none, ["851.0125".data], [], none⟩ : Site)]).length = 1 := by
  exact ⟨by decide, by decide⟩

theorem c2_trunk_roundtrip_validate_witness :
    isSafeProfileName "p".data = true ∧
    ([(⟨"Site 1".data, none, none, none, ["851.0125".data], [], none⟩ : Site)] ≠ []) ∧
    (validateProfileFiles "p".data false
        (writeTrunkTsv "p".data
          [⟨"Site 1".data, none, none, none, ["851.0125".data], [], none⟩]
          ⟨none, none, none, none, none, none, none⟩ (Store.mk [] [] [] [] []))).1 =
      { ok := true, firstError := none,
        details := some { profile := "p".data, trunkFile := trunkFileName "p".data,
                          parsedRows := [(⟨"Site 1".data, none, none, none,
                            ["851.0125".data], [], none⟩ : Site)].length + 1,
                          expectedColumns := some 9,
                          referencedTagFiles := [tagsFileName "p".data],
                          createdTagFiles := [] } } :=
  ⟨by decide, by decide,
    c2_trunk_roundtrip_validate "p".data
      [⟨"Site 1".data, none, none, none, ["851.0125".data], [], none⟩]
      ⟨none, none, none, none, none, none, none⟩ (Store.mk [] [] [] [] []) false
      (by decide) (by decide) (by decide)⟩

/-- `x || null` on a string: empty becomes `null`. -/
def strOrNull (s : Str) : Option Str := if s = [] then none else some s

/-- Integer and fraction digit strings of an unsigned decimal literal.
This is the domain of `Number(v)` that `normalizeFreqToken`
(server.js:167-177) meaningfully consumes: frequencies are unsigned
decimals.  Other numeric spellings (signs, exponents, hex, `Infinity`)
are mapped to `none`, which the caller treats like the
non-finite/non-positive case: the token is dropped. -/
def decParts (t : Str) : Option (Str × Str) :=
  let ip := t.takeWhile Char.isDigit
  match t.dropWhile Char.isDigit with
  | [] => if ip = [] then none else some (ip, [])
  | '.' :: fp =>
    if fp.all Char.isDigit ∧ (ip ≠ [] ∨ fp ≠ []) then some (ip, fp) else none
  | _ => none

/-- The value of `n.toFixed(5)` scaled by `10^5`, for `n` the decimal
`ip.fp`: truncate the fraction to five digits and round half-up on the
sixth (decimal model of the double rounding). -/
def freqScaled (ip fp : Str) : Nat :=
  digitsVal ip * 100000 + digitsVal (fp.take 5) * 10 ^ (5 - (fp.take 5).length) +
    (if decide (5 < fp.length) && decide (53 ≤ (fp.getD 5 '0').toNat) then 1 else 0)

/-- `normalizeFreqToken` (server.js:167-177): trim, require a positive
number, format with five decimals, strip trailing zeros and a trailing
dot. -/
def normalizeFreqToken (token : Option Str) : Option Str :=
  let v := jsTrim (token.getD [])
  if v = [] then none
  else
    match decParts v with
    | none => none
    | some (ip, fp) =>
      let scaled := freqScaled ip fp
      if scaled = 0 then none
      else
        let fracStr := natToStr (scaled % 100000)
        let padded := List.replicate (5 - fracStr.length) '0' ++ fracStr
        let raw := natToStr (scaled / 100000) ++ ".".data ++ padded
        let noZeros := (raw.reverse.dropWhile (fun c => c == '0')).reverse
        some (if strEndsWith noZeros ".".data then noZeros.dropLast else noZeros)

/-- A separator character of the split regex `[;|\s]+` of
`parseFreqList` (server.js:179-184). -/
def isFreqSepChar (c : Char) : Bool := c == ';' || c == '|' || isWsChar c

/-- Split at every single separator character.  The JS regex splits at
maximal separator runs; the runs-split differs from this single-split
only by extra empty tokens, and every empty token normalizes to `null`
and is filtered, so `parseFreqList` is unchanged. -/
def splitSepsGo : Str → Str → List Str
  | acc, [] => [acc.reverse]
  | acc, c :: rest =>
    if isFreqSepChar c then acc.reverse :: splitSepsGo [] rest
    else splitSepsGo (c :: acc) rest

/-- `parseFreqList` (server.js:179-184). -/
def parseFreqList (value : Option Str) : List Str :=
  ((splitSepsGo [] (value.getD [])).map (fun v => normalizeFreqToken (some v))).filterMap id

/-- The per-row body of `normalizeSitesCsv` (server.js:201-225) at
0-based index `idx`. -/
def siteCsvStep (acc : List Str × List Site) (p : Nat × List (Str × Str)) :
    List Str × List Site :=
  let rowNo := p.1 + 2
  let row := p.2
  let name := clampText (rowGet row "site_name".data) 128
  if name = [] then
    (acc.1 ++ ["Row ".data ++ natToStr rowNo ++ ": site_name is required".data], acc.2)
  else
    let controlChannels := parseFreqList (rowGet row "control_freq".data)
    if controlChannels = [] then
      (acc.1 ++ ["Row ".data ++ natToStr rowNo ++
        ": control_freq is required and must be numeric".data], acc.2)
    else
      (acc.1, acc.2 ++ [⟨name,
        strOrNull (clampText (rowGet row "nac".data) 16),
        strOrNull (clampText (rowGet row "sysid".data) 16),
        strOrNull (clampText (rowGet row "wacn".data) 16),
        controlChannels,
        parseFreqList (rowGet row "alt_freqs".data),
        strOrNull (clampText (rowGet row "bandplan".data) 64)⟩])

/-- The result of `normalizeSitesCsv`. -/
structure NormSitesResult where
  errors : List Str
  sites : List Site
deriving Repr, DecidableEq

/-- `normalizeSitesCsv` (server.js:186-228). -/
def normalizeSitesCsv (csvText : Str) : NormSitesResult :=
  let parsed := parseCsv csvText
  let hdrErrors := ((["site_name".data, "control_freq".data] : List Str).filter
      (fun k => !parsed.headers.contains k)).map
      (fun k => "Missing required CSV header: ".data ++ k)
  if hdrErrors ≠ [] then ⟨hdrErrors, []⟩
  else
    let acc := parsed.rows.enum.foldl siteCsvStep ([], [])
    ⟨acc.1, acc.2⟩

/-- Fuel-driven scan replacing every non-overlapping occurrence of
`pat` (nonempty) by `rep`; fuel bounds the input length. -/
def strReplaceAllGo (pat rep : Str) : Nat → Str → Str
  | 0, s => s
  | _ + 1, [] => []
  | fuel + 1, c :: rest =>
    if pat.isPrefixOf (c :: rest) then
      rep ++ strReplaceAllGo pat rep fuel (List.drop (pat.length - 1) rest)
    else c :: strReplaceAllGo pat rep fuel rest

def strReplaceAll (s pat rep : Str) : Str := strReplaceAllGo pat rep s.length s

/-- `normalizeCommandForTrunk` (server.js:417-431) on a string array.
The dynamically built regex ``new RegExp(`${profile}\.tsv`, 'g')`` is
global literal-substring replacement whenever `profile` contains no
regex metacharacter; the handlers only call this after the
`isSafeProfileName` guard, whose alphabet `[A-Za-z0-9_-]` has none. -/
def normalizeCommandForTrunk (profile : Str) (command : List Str) : List Str :=
  command.map (fun token =>
    if token = "\x7bPROFILES_DIR\x7d/".data ++ profile ++ ".tsv".data then
      "\x7bPROFILES_DIR\x7d/".data ++ profile ++ ".trunk.tsv".data
    else strReplaceAll token (profile ++ ".tsv".data) (profile ++ ".trunk.tsv".data))

/-- The default OP25 command array (server.js:1105-1119). -/
def defaultCommand (profile : Str) : List Str :=
  ["python3".data, "/opt/op25/op25/gr-op25_repeater/apps/rx.py".data, "--args".data,
   "rtl".data, "-S".data, "2400000".data, "-T".data,
   "\x7bPROFILES_DIR\x7d/".data ++ profile ++ ".trunk.tsv".data,
   "-2".data, "-V".data, "-O".data, "plughw:Loopback,0,0".data, "-U".data]

/-- `triggerReload` (server.js:433-439) with an explicit profile (every
handler modelled here passes one) at time `now`. -/
def triggerReload (reason : Str) (profile : Str) (now : Str) (s : Store) : Store :=
  let doc : RtDoc := .reloadDoc now reason (some profile)
  { s with runtime := fsSet s.runtime "reload-request.json".data doc }

/-- `persistTalkgroups` (server.js:320-334) at time `now`: write the
talkgroups document, mirror the filter to the runtime directory, and
regenerate the tags TSV. -/
def persistTalkgroups (profile : Str) (entries : List Entry) (now : Str) (s : Store) :
    TgDoc × Store :=
  let doc : TgDoc := ⟨now, buildFilterPolicy entries, entries⟩
  let s1 := { s with tgDocs := fsSet s.tgDocs (talkgroupsFileName profile) doc }
  let fd : RtDoc := .filterDoc now profile doc.filter
  let s2 := { s1 with runtime := fsSet s1.runtime (filterFileName profile) fd }
  (doc, writeTagsTsv profile doc.entries s2)

/-- An HTTP response at the granularity the claims need: the status
code, the `error` field of the JSON body (if present), and its `ok`
field (if present). -/
structure HttpResp where
  status : Nat
  error : Option Str
  ok : Option Bool
deriving Repr, DecidableEq

def invalidProfileMsg : Str := "Invalid profile name".data

/-- `GET /api/validate-profile/:profile` (server.js:979-989). -/
def validateProfileHandler (profile : Str) (createMissingTags : Option Str) (s : Store) :
    HttpResp × Store :=
  if !isSafeProfileName profile then (⟨400, some invalidProfileMsg, some false⟩, s)
  else
    let r := validateProfileFiles profile (parseBool createMissingTags) s
    (⟨if r.1.ok then 200 else 400, r.1.firstError, some r.1.ok⟩, r.2)

/-- `POST /api/profiles/switch` (server.js:1011-1043): `restartOk` is
the outcome of the external `docker restart`; `req.body?.profile` may be
absent (`none`), which `isSafeProfileName` rejects as a non-string. -/
def profilesSwitchHandler (profile : Option Str) (now : Str) (restartOk : Bool) (s : Store) :
    HttpResp × Store :=
  match profile with
  | none => (⟨400, some invalidProfileMsg, none⟩, s)
  | some p =>
    if !isSafeProfileName p then (⟨400, some invalidProfileMsg, none⟩, s)
    else if !fsExists s (profileFileName p) then
      (⟨404, some ("Profile \x27".data ++ p ++ "\x27 not found".data), none⟩, s)
    else
      let v := validateProfileFiles p false s
      if !v.1.ok then (⟨400, v.1.firstError, some false⟩, v.2)
      else
        let doc : RtDoc := .activeDoc p now "api".data
        let s2 := { v.2 with runtime := fsSet v.2.runtime "active-profile.json".data doc }
        (⟨200, none, some restartOk⟩, triggerReload "profile-switch".data p now s2)

/-- The fallback payload of `GET /api/talkgroups/:profile`
(server.js:1050); the JS fallback object carries no `updatedAt` and no
`effective`, modelled as empty. -/
def defaultTgPayload : TgDoc := ⟨[], ⟨"blacklist".data, [], [], []⟩, []⟩

/-- The response of `GET /api/talkgroups/:profile`: its success body is
the talkgroups document itself. -/
structure TgGetResp where
  status : Nat
  error : Option Str
  payload : Option TgDoc
deriving Repr, DecidableEq

/-- `GET /api/talkgroups/:profile` (server.js:1045-1052). -/
def getTalkgroupsHandler (profile : Str) (s : Store) : TgGetResp × Store :=
  if !isSafeProfileName profile then (⟨400, some invalidProfileMsg, none⟩, s)
  else
    let payload := (fsGet s.tgDocs (talkgroupsFileName profile)).getD defaultTgPayload
    (⟨200, none, some payload⟩, s)

/-- `PUT /api/talkgroups/:profile` (server.js:1054-1066). -/
def putTalkgroupsHandler (profile : Str) (entries : Option (List RawEntry)) (now : Str)
    (s : Store) : HttpResp × Store :=
  if !isSafeProfileName profile then (⟨400, some invalidProfileMsg, none⟩, s)
  else
    let normalized := normalizeTalkgroupsEntries (entries.getD [])
    if normalized.errors ≠ [] then
      (⟨400, some (joinSep "; ".data normalized.errors), none⟩, s)
    else
      let r := persistTalkgroups profile normalized.entries now s
      (⟨200, none, some true⟩, triggerReload "talkgroup-update".data profile now r.2)

/-- `POST /api/import/sites/:profile/preview` (server.js:1068-1076). -/
def importSitesPreviewHandler (profile : Str) (csv : Option Str) (s : Store) :
    HttpResp × Store :=
  if !isSafeProfileName profile then (⟨400, some invalidProfileMsg, none⟩, s)
  else
    let parsed := normalizeSitesCsv (csv.getD [])
    (⟨200, none, some parsed.errors.isEmpty⟩, s)

/-- `POST /api/import/sites/:profile/save` (server.js:1078-1129). -/
def importSitesSaveHandler (profile : Str) (csv : Option Str) (now : Str) (s : Store) :
    HttpResp × Store :=
  if !isSafeProfileName profile then (⟨400, some invalidProfileMsg, none⟩, s)
  else
    let parsed := normalizeSitesCsv (csv.getD [])
    if parsed.errors ≠ [] then
      (⟨400, some (joinSep "; ".data parsed.errors), none⟩, s)
    else
      let existing := (fsGet s.profDocs (profileFileName profile)).getD
        ⟨none, none, none, none, none, none, none⟩
      let updated : ProfDoc := ⟨some (strOr existing.label profile),
        some (strOr existing.description (profile ++ " imported profile".data)),
        some (strOr existing.notes "Imported from user-supplied CSV".data),
        some ⟨some (strOr (sysGet existing (fun sys => sys.name)) profile),
          strOrNull ((sysGet existing (fun sys => sys.sysid)).getD []),
          strOrNull ((sysGet existing (fun sys => sys.wacn)).getD []),
          strOrNull ((sysGet existing (fun sys => sys.nac)).getD []),
          some (strOr (sysGet existing (fun sys => sys.bandplan)) "P25 Auto".data),
          parsed.sites⟩,
        some (match existing.command with
          | some cmd =>
            if cmd ≠ [] then normalizeCommandForTrunk profile cmd else defaultCommand profile
          | none => defaultCommand profile),
        some now,
        some "sites-csv".data⟩
      let s1 := { s with profDocs := fsSet s.profDocs (profileFileName profile) updated }
      let s2 := ensureTagsFile profile s1
      let s3 := writeTrunkTsv profile parsed.sites updated s2
      (⟨200, none, some true⟩, triggerReload "sites-import".data profile now s3)

/-- `POST /api/import/talkgroups/:profile/preview` (server.js:1131-1139). -/
def importTalkgroupsPreviewHandler (profile : Str) (csv : Option Str) (s : Store) :
    HttpResp × Store :=
  if !isSafeProfileName profile then (⟨400, some invalidProfileMsg, none⟩, s)
  else
    let parsed := normalizeTalkgroupsCsv (csv.getD [])
    (⟨200, none, some parsed.errors.isEmpty⟩, s)

/-- `POST /api/import/talkgroups/:profile/save` (server.js:1141-1154). -/
def importTalkgroupsSaveHandler (profile : Str) (csv : Option Str) (now : Str) (s : Store) :
    HttpResp × Store :=
  if !isSafeProfileName profile then (⟨400, some invalidProfileMsg, none⟩, s)
  else
    let parsed := normalizeTalkgroupsCsv (csv.getD [])
    if parsed.errors ≠ [] then
      (⟨400, some (joinSep "; ".data parsed.errors), none⟩, s)
    else
      let r := persistTalkgroups profile parsed.entries now s
      (⟨200, none, some true⟩, triggerReload "talkgroup-import".data profile now r.2)

/-- The import-file-name pattern `^[A-Za-z0-9_.-]\x7b1,128\x7d$`
(server.js:1162). -/
def validImportFileName (name : Str) : Bool :=
  decide (1 ≤ name.length) && decide (name.length ≤ 128) && name.all isTagNameChar

/-- The import document viewed as the `profileData` argument of
`writeTrunkTsv` (which only reads `system`). -/
def importDocProf (d : ImportDoc) : ProfDoc :=
  ⟨d.label, d.description, d.notes, d.system, d.command, none, none⟩

/-- `POST /api/import/profile/:profile/from-json-file`
(server.js:1156-1200).  Note the profile JSON is written BEFORE the
talkgroup entries are normalized, so a row error still leaves the
rewritten profile document behind. -/
def importFromJsonFileHandler (profile : Str) (fileName : Option Str) (now : Str) (s : Store) :
    HttpResp × Store :=
  if !isSafeProfileName profile then (⟨400, some invalidProfileMsg, none⟩, s)
  else
    let fn := strOr fileName (profile ++ ".import.json".data)
    if !validImportFileName fn then (⟨400, some "Invalid fileName".data, none⟩, s)
    else if !fsExists s fn then (⟨404, some ("Not found: ".data ++ fn), none⟩, s)
    else
      match fsGet s.importDocs fn with
      | none => (⟨400, some ("Invalid JSON: ".data ++ fn), none⟩, s)
      | some raw =>
        match raw.system, raw.talkgroupsEntries with
        | some sys, some rawEntries =>
          let updated : ProfDoc := ⟨some (strOr raw.label profile),
            some (strOr raw.description (profile ++ " imported profile".data)),
            some (strOr raw.notes "Imported from user JSON".data),
            some sys,
            some (match raw.command with
              | some cmd =>
                if cmd ≠ [] then normalizeCommandForTrunk profile cmd
                else defaultCommand profile
              | none => defaultCommand profile),
            some now,
            some ("json-file:".data ++ fn)⟩
          let s1 := { s with profDocs := fsSet s.profDocs (profileFileName profile) updated }
          let normalized := normalizeTalkgroupsEntries rawEntries
          if normalized.errors ≠ [] then
            (⟨400, some (joinSep "; ".data normalized.errors), none⟩, s1)
          else
            let r := persistTalkgroups profile normalized.entries now s1
            let s3 := writeTrunkTsv profile sys.sites (importDocProf raw) r.2
            (⟨200, none, some true⟩, triggerReload "profile-json-import".data profile now s3)
        | _, _ =>
          (⟨400,
            some "JSON file must include system.sites[] and talkgroups.entries[]".data,
            none⟩, s)

/-- C8: every store operation keyed by a profile name — validation,
profile switch, talkgroup read and write, and all four import endpoints
plus the JSON-file import — tests `isSafeProfileName` before anything
else: for a name outside `^[A-Za-z0-9_-]\x7b1,64\x7d$` each handler
returns status 400 with an error and an unchanged store, so no file
name is ever built from the unsafe string and no file is read or
written. -/
theorem c8_unsafe_profile_rejected (name : Str) (s : Store)
    (q csv fn : Option Str) (entries : Option (List RawEntry))
    (now : Str) (restartOk : Bool)
    (h : isSafeProfileName name = false) :
    validateProfileHandler name q s = (⟨400, some invalidProfileMsg, some false⟩, s) ∧
    profilesSwitchHandler (some name) now restartOk s =
      (⟨400, some invalidProfileMsg, none⟩, s) ∧
    getTalkgroupsHandler name s = (⟨400, some invalidProfileMsg, none⟩, s) ∧
    putTalkgroupsHandler name entries now s = (⟨400, some invalidProfileMsg, none⟩, s) ∧
    importSitesPreviewHandler name csv s = (⟨400, some invalidProfileMsg, none⟩, s) ∧
    importSitesSaveHandler name csv now s = (⟨400, some invalidProfileMsg, none⟩, s) ∧
    importTalkgroupsPreviewHandler name csv s = (⟨400, some invalidProfileMsg, none⟩, s) ∧
    importTalkgroupsSaveHandler name csv now s = (⟨400, some invalidProfileMsg, none⟩, s) ∧
    importFromJsonFileHandler name fn now s = (⟨400, some invalidProfileMsg, none⟩, s) := by
  refine ⟨?_, ?_, ?_, ?_, ?_, ?_, ?_, ?_, ?_⟩ <;>
    simp [validateProfileHandler, profilesSwitchHandler, getTalkgroupsHandler,
      putTalkgroupsHandler, importSitesPreviewHandler, importSitesSaveHandler,
      importTalkgroupsPreviewHandler, importTalkgroupsSaveHandler,
      importFromJsonFileHandler, h]

theorem c8_unsafe_profile_rejected_witness :
    isSafeProfileName "..".data = false ∧
    (validateProfileHandler "..".data none (Store.mk [] [] [] [] []) =
      (⟨400, some invalidProfileMsg, some false⟩, Store.mk [] [] [] [] []) ∧
    profilesSwitchHandler (some "..".data) "t".data true (Store.mk [] [] [] [] []) =
      (⟨400, some invalidProfileMsg, none⟩, Store.mk [] [] [] [] []) ∧
    getTalkgroupsHandler "..".data (Store.mk [] [] [] [] []) =
      (⟨400, some invalidProfileMsg, none⟩, Store.mk [] [] [] [] []) ∧
    putTalkgroupsHandler "..".data none "t".data (Store.mk [] [] [] [] []) =
      (⟨400, some invalidProfileMsg, none⟩, Store.mk [] [] [] [] []) ∧
    importSitesPreviewHandler "..".data none (Store.mk [] [] [] [] []) =
      (⟨400, some invalidProfileMsg, none⟩, Store.mk [] [] [] [] []) ∧
    importSitesSaveHandler "..".data none "t".data (Store.mk [] [] [] [] []) =
      (⟨400, some invalidProfileMsg, none⟩, Store.mk [] [] [] [] []) ∧
    importTalkgroupsPreviewHandler "..".data none (Store.mk [] [] [] [] []) =
      (⟨400, some invalidProfileMsg, none⟩, Store.mk [] [] [] [] []) ∧
    importTalkgroupsSaveHandler "..".data none "t".data (Store.mk [] [] [] [] []) =
      (⟨400, some invalidProfileMsg, none⟩, Store.mk [] [] [] [] []) ∧
    importFromJsonFileHandler "..".data none "t".data (Store.mk [] [] [] [] []) =
      (⟨400, some invalidProfileMsg, none⟩, Store.mk [] [] [] [] [])) :=
  ⟨by decide,
    c8_unsafe_profile_rejected "..".data (Store.mk [] [] [] [] [])
      none none none none "t".data true (by decide)⟩
